import Mathlib

/-!
Verification development for the Ruda data-driven parser engine.

The definitions below are a shallow embedding of the Rust sources:
src/src/grammar.rs (grammar data model and validator) and
src/src/parser.rs (the rule-interpreting parser).  Machine integers are
modelled as Nat and Int, HashMap as an association list, Vec as List, and
Rust index-out-of-bounds panics as an explicit panicked outcome.  The
rule interpreter is given a fuel parameter; running out of fuel yields a
distinguished timeout outcome that corresponds to no Rust behaviour.

Two small pieces of the repository are not present under src (the lexer
that defines TokenKinds together with its is_whitespace helper, and the
eof field of Grammar, which parser.rs reads).  Those are modelled from
the specification and are marked as such in their doc comments.
-/

/-- Source location of a token, from the lexer data model. -/
structure TextLocation where
  line : Nat
  column : Nat
deriving DecidableEq

def TextLocation.new (line : Nat) (column : Nat) : TextLocation :=
  ⟨line, column⟩

/-- Control token kinds Eof and Eol, from the lexer data model. -/
inductive ControlTokenKind where
  | Eof
  | Eol
deriving DecidableEq

/-- Token kinds, from the lexer data model described by the spec section 3. -/
inductive TokenKinds where
  | Text
  | Token (text : String)
  | Complex (tag : String)
  | Whitespace
  | Control (kind : ControlTokenKind)
deriving DecidableEq

/-- Modelled from the spec: the lexer source file carrying is_whitespace is
absent from src.  Spec section 4.4 states that Whitespace and Control Eol
tokens are the ones skipped transparently, and parser.rs performs that
skipping through a single kind.is_whitespace() call. -/
def TokenKinds.is_whitespace : TokenKinds → Bool
  | .Whitespace => true
  | .Control .Eol => true
  | _ => false

/-- Lexer token: kind, byte index, byte length and location, per spec
section 3.  Byte offsets are modelled as character offsets. -/
structure Token where
  kind : TokenKinds
  index : Nat
  len : Nat
  location : TextLocation
deriving DecidableEq

/-- Lexer configuration: the declared literal token strings.  Preprocessors
are irrelevant to the parser and the validator checks embedded here. -/
structure Lexer where
  token_kinds : List String

/-- Modelled from the spec: stringify(token) returns the slice of the input
text covered by the token range, spec section 4.1.  Byte offsets are
modelled as character offsets. -/
def Lexer.stringify (_lexer : Lexer) (tok : Token) (text : String) : String :=
  String.mk ((text.toList.drop tok.index).take tok.len)

/-- Association-list model of HashMap::get. -/
def mapGet {α : Type} (m : List (String × α)) (k : String) : Option α :=
  match m with
  | [] => none
  | (k2, v) :: rest => if k2 = k then some v else mapGet rest k

/-- Association-list model of writing through HashMap::get_mut: replaces the
value of an existing key and leaves the map unchanged otherwise (the parser
only writes to keys it has just looked up). -/
def mapSet {α : Type} (m : List (String × α)) (k : String) (v : α) :
    List (String × α) :=
  match m with
  | [] => []
  | (k2, v2) :: rest => if k2 = k then (k2, v) :: rest else (k2, v2) :: mapSet rest k v

namespace grammar

/-- Variable kinds of grammar variables, from grammar.rs. -/
inductive VariableKind where
  | Node
  | NodeList
  | Boolean
  | Number
deriving DecidableEq

/-- Match targets, from grammar.rs. -/
inductive MatchToken where
  | Token (kind : TokenKinds)
  | Node (name : String)
  | Word (word : String)
  | Enumerator (name : String)
  | Any
deriving DecidableEq

/-- Comparison operators, from grammar.rs. -/
inductive Comparison where
  | Equal
  | NotEqual
  | GreaterThan
  | LessThan
  | GreaterThanOrEqual
  | LessThanOrEqual
deriving DecidableEq, BEq

/-- Rule parameters, from grammar.rs.  Back carries a u8 and Break a usize,
both modelled as Nat. -/
inductive Parameters where
  | Set (name : String)
  | Global (name : String)
  | Increment (name : String)
  | Decrement (name : String)
  | IncrementGlobal (name : String)
  | True (name : String)
  | False (name : String)
  | TrueGlobal (name : String)
  | FalseGlobal (name : String)
  | Print (message : String)
  | Debug (target : Option String)
  | Back (steps : Nat)
  | Return
  | Break (n : Nat)
  | HardError (set : Bool)
  | Goto (label : String)
  | NodeStart
  | NodeEnd
deriving DecidableEq

mutual

/-- Grammar rules, from grammar.rs.  The Debug rule variant matched by
parser.rs does not exist in the Rule enum of grammar.rs, so it is omitted:
no grammar value can contain it. -/
inductive Rule where
  | Is (token : MatchToken) (rules : List Rule) (parameters : List Parameters)
  | Isnt (token : MatchToken) (rules : List Rule) (parameters : List Parameters)
  | IsOneOf (tokens : List OneOf)
  | Maybe (token : MatchToken) (is : List Rule) (isnt : List Rule)
      (parameters : List Parameters)
  | MaybeOneOf (is_one_of : List OneOf) (isnt : List Rule)
  | While (token : MatchToken) (rules : List Rule) (parameters : List Parameters)
  | Loop (rules : List Rule)
  | Until (token : MatchToken) (rules : List Rule) (parameters : List Parameters)
  | UntilOneOf (tokens : List OneOf)
  | Command (command : Commands)

/-- One alternative of an alternation rule, from grammar.rs.  parser.rs also
destructures the alternatives of MaybeOneOf with this shape. -/
inductive OneOf where
  | mk (token : MatchToken) (rules : List Rule) (parameters : List Parameters)

/-- Commands, from grammar.rs. -/
inductive Commands where
  | Compare (left : String) (right : String) (comparison : Comparison)
      (rules : List Rule)
  | Error (message : String)
  | HardError (set : Bool)
  | Goto (label : String)
  | Label (name : String)
  | Print (message : String)

end

def OneOf.token : OneOf → MatchToken
  | .mk t _ _ => t

def OneOf.rules : OneOf → List Rule
  | .mk _ r _ => r

def OneOf.parameters : OneOf → List Parameters
  | .mk _ _ p => p

/-- Grammar node definition, from grammar.rs. -/
structure Node where
  name : String
  rules : List Rule
  vars : List (String × VariableKind)

/-- Named alternation set, from grammar.rs. -/
structure Enumerator where
  name : String
  values : List MatchToken

/-- Grammar value, from grammar.rs.  The eof field is modelled from the
spec (section 6): grammar.rs in src does not declare it although parser.rs
reads it; the spec gives it default false. -/
structure Grammar where
  nodes : List (String × Node)
  enumerators : List (String × Enumerator)
  globals : List (String × VariableKind)
  eof : Bool := false

end grammar

/-- Outcome of a Rust function returning Result, extended with an explicit
panicked outcome for index-out-of-bounds and with a timeout outcome for
fuel exhaustion of the embedding. -/
inductive Res (ε : Type) (α : Type) where
  | ok (value : α)
  | err (error : ε)
  | panicked
  | timeout

/-- Alias for the lexer token type, usable inside namespace parser where
the name Token is taken by a constructor of Nodes. -/
abbrev Tok := Token

namespace parser

mutual

/-- Tree children: either a parsed sub-node or a bare token, from parser.rs. -/
inductive Nodes where
  | Node (node : Node) : Nodes
  | Token (token : Tok) : Nodes

/-- Parser node under construction, from parser.rs. -/
inductive Node where
  | mk (name : String) (vars : List (String × VariableKind))
      (first_string_idx : Nat) (last_string_idx : Nat)
      (harderror : Bool) : Node

/-- Runtime variable values, from parser.rs. -/
inductive VariableKind where
  | Node (value : Option Nodes) : VariableKind
  | NodeList (value : List Nodes) : VariableKind
  | Boolean (value : Bool) : VariableKind
  | Number (value : Int) : VariableKind

end

def Node.name : Node → String
  | .mk n _ _ _ _ => n

def Node.vars : Node → List (String × VariableKind)
  | .mk _ v _ _ _ => v

def Node.first_string_idx : Node → Nat
  | .mk _ _ f _ _ => f

def Node.last_string_idx : Node → Nat
  | .mk _ _ _ l _ => l

def Node.harderror : Node → Bool
  | .mk _ _ _ _ h => h

def Node.setVariables : Node → List (String × VariableKind) → Node
  | .mk n _ f l h, v => .mk n v f l h

def Node.setFirst : Node → Nat → Node
  | .mk n v _ l h, f => .mk n v f l h

def Node.setLast : Node → Nat → Node
  | .mk n v f _ h, l => .mk n v f l h

def Node.setHarderror : Node → Bool → Node
  | .mk n v f l _, h => .mk n v f l h

/-- Node::new from parser.rs. -/
def Node.new (name : String) : Node :=
  .mk name [] 0 0 false

def Nodes.is_token : Nodes → Bool
  | .Token _ => true
  | _ => false

def Nodes.is_node : Nodes → Bool
  | .Node _ => true
  | _ => false

/-- Node::variables_from_grammar from parser.rs: initial runtime values for
declared variables.  The Rust function returns Result but never errs. -/
def Node.variables_from_grammar
    (vars : List (String × grammar.VariableKind)) :
    List (String × VariableKind) :=
  vars.map (fun p => (p.1,
    match p.2 with
    | .Node => VariableKind.Node none
    | .NodeList => VariableKind.NodeList []
    | .Boolean => VariableKind.Boolean false
    | .Number => VariableKind.Number 0))

/-- Node::from_grammar from parser.rs, with the not-found case handled at
the call site in parse_node. -/
def Node.from_grammar (g : grammar.Grammar) (name : String) : Option Node :=
  (mapGet g.nodes name).map (fun found =>
    (Node.new found.name).setVariables (variables_from_grammar found.vars))

/-- Error kinds, from parser.rs. -/
inductive ParseErrors where
  | ParserNotFullyImplemented
  | NodeNotFound (name : String)
  | ExpectedToken (expected : TokenKinds) (found : TokenKinds)
  | ExpectedWord (expected : String) (found : TokenKinds)
  | EnumeratorNotFound (name : String)
  | ExpectedToNotBe (kind : TokenKinds)
  | VariableNotFound (name : String)
  | UncountableVariable (name : String) (kind : VariableKind)
  | CannotSetVariable (name : String) (kind : VariableKind)
  | Message (message : String)
  | Eof
  | LabelNotFound (name : String)
  | CannotGoBack (steps : Nat)
  | CannotBreak (n : Nat)
  | ExpectedOneOf (expected : List grammar.MatchToken) (found : TokenKinds)
  | CouldNotFindToken (token : grammar.MatchToken)
  | MissingEof (found : TokenKinds)
  | Ok

/-- Parse error value, from parser.rs. -/
structure ParseError where
  kind : ParseErrors
  location : TextLocation
  node : Option Node

/-- Result of match_token, from parser.rs. -/
inductive TokenCompare where
  | Is (value : Nodes)
  | IsNot (error : ParseError)

/-- Successful parse result, from parser.rs. -/
structure ParseResult where
  entry : Node
  globals : List (String × VariableKind)

/-- Token-stream cursor, from parser.rs. -/
structure Cursor where
  idx : Nat
  to_advance : Bool
deriving DecidableEq

/-- Control messages, from parser.rs. -/
inductive Msg where
  | Return
  | Break (n : Nat)
  | Goto (label : String)
  | Back (steps : Nat)
  | Ok

/-- Parser entry configuration, from parser.rs. -/
structure Parser where
  entry : String

abbrev Globals := List (String × VariableKind)

/-- True when the node recorded inside the error has its harderror flag set;
this is the test the alternation arms of parse_rules perform on a soft
match result. -/
def errNodeHard (e : ParseError) : Bool :=
  match e.node with
  | some n => n.harderror
  | none => false

/-- Builds a ParseError whose location is taken from the token at index i,
mirroring the Rust pattern tokens[i].location.clone() which panics when the
index is out of bounds. -/
def errAt {α : Type} (toks : List Token) (i : Nat) (kind : ParseErrors)
    (node : Option Node) : Res ParseError α :=
  match toks.get? i with
  | none => .panicked
  | some t => .err ⟨kind, t.location, node⟩

/-- Whitespace-skip loop of match_token: from index i, steps over tokens
whose kind satisfies is_whitespace; returns none when the loop would index
past the end of the token list (a Rust panic). -/
def skipWsGo : List Token → Nat → Option Nat
  | [], _ => none
  | t :: rest, i => if t.kind.is_whitespace then skipWsGo rest (i + 1) else some i

def skipWs (toks : List Token) (i : Nat) : Option Nat :=
  skipWsGo (toks.drop i) i

/-- Whitespace-skip loop of Parser::parse in eof mode: stops at the first
index that is past the end or holds a non-whitespace token. -/
def eofSkipGo : List Token → Nat → Nat
  | [], i => i
  | t :: rest, i => if t.kind.is_whitespace then eofSkipGo rest (i + 1) else i

def eofSkip (toks : List Token) (i : Nat) : Nat :=
  eofSkipGo (toks.drop i) i

/-- Label search of the Goto message handler in parse_rules: index of the
first Label command with the given name. -/
def findLabel : List grammar.Rule → String → Option Nat
  | [], _ => none
  | r :: rest, label =>
    match r with
    | .Command (.Label name) =>
      if name = label then some 0 else (findLabel rest label).map (· + 1)
    | _ => (findLabel rest label).map (· + 1)

/-- Outcome of draining the message bus after one rule. -/
inductive DrainRes where
  | exit (msg : Msg)
  | next (i : Nat)

/-- Message-bus drain loop at the bottom of each parse_rules iteration.
The bus is a list with the newest message first, matching Vec push and pop.
Break with n = 0 underflows usize in Rust; Nat subtraction stands in. -/
def drain (rules : List grammar.Rule) : List Msg → Nat → DrainRes
  | [], i => .next i
  | m :: rest, i =>
    match m with
    | .Ok => drain rules rest i
    | .Return => .exit .Return
    | .Break n => .exit (if n = 1 then .Ok else .Break (n - 1))
    | .Goto label =>
      match findLabel rules label with
      | some j => drain rules rest j
      | none => .exit (.Goto label)
    | .Back steps =>
      if i < steps then .exit (.Back (steps - i)) else drain rules rest (i - steps)

/-- Comparison-set computation of the Compare command arm of parse_rules,
lines 690 to 754 of parser.rs. -/
def compareComparisons : VariableKind → VariableKind → List grammar.Comparison
  | .Node nl, right =>
    (match right with
     | .Node nr =>
       (match nl, nr with
        | some (.Node l), some (.Node r) =>
          if l.name = r.name then [.Equal] else [.NotEqual]
        | some (.Token l), some (.Token r) =>
          if l = r then [.Equal] else [.NotEqual]
        | none, none => [.Equal]
        | _, _ => [.NotEqual])
     | _ => [.NotEqual])
  | .NodeList _, _ => [.NotEqual]
  | .Boolean l, right =>
    (match right with
     | .Boolean r => if l = r then [.Equal] else [.NotEqual]
     | _ => [.NotEqual])
  | .Number l, right =>
    (match right with
     | .Number r =>
       if l = r then [.Equal, .GreaterThanOrEqual, .LessThanOrEqual]
       else [.NotEqual]
            ++ (if l > r then [.GreaterThan, .GreaterThanOrEqual] else [])
            ++ (if l < r then [.LessThan, .LessThanOrEqual] else [])
     | _ => [.NotEqual])

/-- One step of the parse_parameters loop of parser.rs: applies a single
parameter to the node, the globals and the message bus.  The cursor is read
only (for token indices and error locations). -/
def applyParam (toks : List Tok) (p : grammar.Parameters) (c : Cursor)
    (gl : Globals) (node : Node) (value : Nodes) (bus : List Msg) :
    Res ParseError Unit × Globals × Node × List Msg :=
  match p with
  | .Set name =>
    (match mapGet node.vars name with
     | none => (errAt toks c.idx (.VariableNotFound name) none, gl, node, bus)
     | some kind =>
       match kind with
       | .Node _ =>
         (.ok (), gl,
          node.setVariables (mapSet node.vars name (.Node (some value))), bus)
       | .NodeList list =>
         (.ok (), gl,
          node.setVariables (mapSet node.vars name (.NodeList (list ++ [value]))), bus)
       | .Boolean _ =>
         (errAt toks c.idx (.CannotSetVariable name kind) none, gl, node, bus)
       | .Number _ =>
         (errAt toks c.idx (.CannotSetVariable name kind) none, gl, node, bus))
  | .Print _ => (.ok (), gl, node, bus)
  | .Debug target =>
    (match target with
     | some ident =>
       (match mapGet node.vars ident with
        | none => (errAt toks c.idx (.VariableNotFound ident) none, gl, node, bus)
        | some _ => (.ok (), gl, node, bus))
     | none => (.ok (), gl, node, bus))
  | .Increment ident =>
    (match mapGet node.vars ident with
     | none => (errAt toks c.idx (.VariableNotFound ident) none, gl, node, bus)
     | some kind =>
       match kind with
       | .Number v =>
         (.ok (), gl,
          node.setVariables (mapSet node.vars ident (.Number (v + 1))), bus)
       | .Node _ =>
         (errAt toks c.idx (.UncountableVariable ident kind) none, gl, node, bus)
       | .NodeList _ =>
         (errAt toks c.idx (.UncountableVariable ident kind) none, gl, node, bus)
       | .Boolean _ =>
         (errAt toks c.idx (.UncountableVariable ident kind) none, gl, node, bus))
  | .Decrement ident =>
    (match mapGet node.vars ident with
     | none => (errAt toks c.idx (.VariableNotFound ident) none, gl, node, bus)
     | some kind =>
       match kind with
       | .Number v =>
         (.ok (), gl,
          node.setVariables (mapSet node.vars ident (.Number (v - 1))), bus)
       | .Node _ =>
         (errAt toks c.idx (.UncountableVariable ident kind) none, gl, node, bus)
       | .NodeList _ =>
         (errAt toks c.idx (.UncountableVariable ident kind) none, gl, node, bus)
       | .Boolean _ =>
         (errAt toks c.idx (.UncountableVariable ident kind) none, gl, node, bus))
  | .True name =>
    (match mapGet node.vars name with
     | none => (errAt toks c.idx (.VariableNotFound name) none, gl, node, bus)
     | some kind =>
       match kind with
       | .Boolean _ =>
         (.ok (), gl,
          node.setVariables (mapSet node.vars name (.Boolean true)), bus)
       | _ =>
         (errAt toks c.idx (.UncountableVariable name kind) none, gl, node, bus))
  | .False name =>
    (match mapGet node.vars name with
     | none => (errAt toks c.idx (.VariableNotFound name) none, gl, node, bus)
     | some kind =>
       match kind with
       | .Boolean _ =>
         (.ok (), gl,
          node.setVariables (mapSet node.vars name (.Boolean false)), bus)
       | _ =>
         (errAt toks c.idx (.UncountableVariable name kind) none, gl, node, bus))
  | .Global name =>
    (match mapGet gl name with
     | none => (errAt toks c.idx (.VariableNotFound name) none, gl, node, bus)
     | some kind =>
       match kind with
       | .Node _ =>
         (.ok (), mapSet gl name (.Node (some value)), node, bus)
       | .NodeList list =>
         (.ok (), mapSet gl name (.NodeList (list ++ [value])), node, bus)
       | .Boolean _ =>
         (errAt toks c.idx (.CannotSetVariable name kind) none, gl, node, bus)
       | .Number _ =>
         (errAt toks c.idx (.CannotSetVariable name kind) none, gl, node, bus))
  | .IncrementGlobal name =>
    (match mapGet gl name with
     | none => (errAt toks c.idx (.VariableNotFound name) none, gl, node, bus)
     | some kind =>
       match kind with
       | .Number v => (.ok (), mapSet gl name (.Number (v + 1)), node, bus)
       | .Node _ =>
         (errAt toks c.idx (.UncountableVariable name kind) none, gl, node, bus)
       | .NodeList _ =>
         (errAt toks c.idx (.UncountableVariable name kind) none, gl, node, bus)
       | .Boolean _ =>
         (errAt toks c.idx (.UncountableVariable name kind) none, gl, node, bus))
  | .TrueGlobal name =>
    (match mapGet gl name with
     | none => (errAt toks c.idx (.VariableNotFound name) none, gl, node, bus)
     | some kind =>
       match kind with
       | .Boolean _ => (.ok (), mapSet gl name (.Boolean true), node, bus)
       | _ =>
         (errAt toks c.idx (.UncountableVariable name kind) none, gl, node, bus))
  | .FalseGlobal name =>
    (match mapGet gl name with
     | none => (errAt toks c.idx (.VariableNotFound name) none, gl, node, bus)
     | some kind =>
       match kind with
       | .Boolean _ => (.ok (), mapSet gl name (.Boolean false), node, bus)
       | _ =>
         (errAt toks c.idx (.UncountableVariable name kind) none, gl, node, bus))
  | .HardError v => (.ok (), gl, node.setHarderror v, bus)
  | .NodeStart =>
    (match toks.get? c.idx with
     | none => (.panicked, gl, node, bus)
     | some t => (.ok (), gl, node.setFirst t.index, bus))
  | .NodeEnd =>
    (match toks.get? c.idx with
     | none => (.panicked, gl, node, bus)
     | some t => (.ok (), gl, node.setLast (t.index + t.len), bus))
  | .Back steps => (.ok (), gl, node, .Back steps :: bus)
  | .Return => (.ok (), gl, node, .Return :: bus)
  | .Goto label => (.ok (), gl, node, .Goto label :: bus)
  | .Break bn => (.ok (), gl, node, .Break bn :: bus)

/-- The parse_parameters loop of parser.rs: applies the parameters in order,
stopping at the first error. -/
def parse_parameters (toks : List Tok) (params : List grammar.Parameters)
    (c : Cursor) (gl : Globals) (node : Node) (value : Nodes)
    (bus : List Msg) : Res ParseError Unit × Globals × Node × List Msg :=
  match params with
  | [] => (.ok (), gl, node, bus)
  | p :: rest =>
    match applyParam toks p c gl node value bus with
    | (.ok _, gl2, node2, bus2) =>
      parse_parameters toks rest c gl2 node2 value bus2
    | (.err e, gl2, node2, bus2) => (.err e, gl2, node2, bus2)
    | (.panicked, gl2, node2, bus2) => (.panicked, gl2, node2, bus2)
    | (.timeout, gl2, node2, bus2) => (.timeout, gl2, node2, bus2)

/-- Deferred cursor advance executed at the top of every parse_rules loop
iteration (lines 200 to 210 of parser.rs). -/
def advanceCursor (toks : List Tok) (c : Cursor) (node : Node) :
    Res ParseError Unit × Cursor :=
  if c.to_advance then
    let c2 : Cursor := ⟨c.idx + 1, false⟩
    if toks.length ≤ c2.idx then
      (match toks.get? (c2.idx - 1) with
       | none => (.panicked, c2)
       | some t => (.err ⟨.Eof, t.location, some node⟩, c2))
    else (.ok (), c2)
  else (.ok (), c)

mutual

/-- Parser::parse_node from parser.rs.  On any error from the rule run the
cursor is restored to its entry value; the globals are returned as the rule
run left them. -/
def parse_node (fuel : Nat) (g : grammar.Grammar) (l : Lexer)
    (toks : List Tok) (txt : String) (name : String) (c : Cursor)
    (gl : Globals) : Res (ParseError × Node) Node × Cursor × Globals :=
  match fuel with
  | 0 => (.timeout, c, gl)
  | n + 1 =>
    match Node.from_grammar g name with
    | none =>
      (.err (⟨.NodeNotFound name, TextLocation.new 0 0, none⟩, Node.new name),
       c, gl)
    | some node0 =>
      match toks.get? c.idx with
      | none => (.panicked, c, gl)
      | some t0 =>
        let node1 := node0.setFirst t0.index
        match mapGet g.nodes name with
        | none => (.err (⟨.NodeNotFound name, t0.location, some node1⟩, node1), c, gl)
        | some gn =>
          match rulesLoop n g l toks txt gn.rules 0 c gl c node1 with
          | (r, c2, gl2, node2) =>
            match (if node2.last_string_idx = 0 then
                     (if toks.length ≤ c2.idx then
                        (match toks.getLast? with
                         | none => none
                         | some tl => some (node2.setLast (tl.index + tl.len)))
                      else
                        (match toks.get? c2.idx with
                         | none => none
                         | some t2 => some (node2.setLast (t2.index + t2.len))))
                   else some node2) with
            | none => (.panicked, c2, gl2)
            | some node3 =>
              match r with
              | .ok .Ok => (.ok node3, c2, gl2)
              | .ok .Return => (.ok node3, c2, gl2)
              | .ok (.Break bn) =>
                (match toks.get? c2.idx with
                 | none => (.panicked, c2, gl2)
                 | some t2 =>
                   (.err (⟨.CannotBreak bn, t2.location, some node3⟩, node3), c2, gl2))
              | .ok (.Back steps) =>
                (match toks.get? c2.idx with
                 | none => (.panicked, c2, gl2)
                 | some t2 =>
                   (.err (⟨.CannotGoBack steps, t2.location, some node3⟩, node3), c2, gl2))
              | .ok (.Goto label) =>
                (match toks.get? c2.idx with
                 | none => (.panicked, c2, gl2)
                 | some t2 =>
                   (.err (⟨.LabelNotFound label, t2.location, some node3⟩, node3), c2, gl2))
              | .err e => (.err (e, node3), c, gl2)
              | .panicked => (.panicked, c2, gl2)
              | .timeout => (.timeout, c2, gl2)

/-- The while loop of Parser::parse_rules from parser.rs.  The parameter i
is the rule index, cc the cursor clone taken at node entry.  The message
bus is drained after every rule, so it is empty at each loop entry. -/
def rulesLoop (fuel : Nat) (g : grammar.Grammar) (l : Lexer)
    (toks : List Tok) (txt : String) (rules : List grammar.Rule) (i : Nat)
    (c : Cursor) (gl : Globals) (cc : Cursor) (node : Node) :
    Res ParseError Msg × Cursor × Globals × Node :=
  match fuel with
  | 0 => (.timeout, c, gl, node)
  | n + 1 =>
    if h : i < rules.length then
      match advanceCursor toks c node with
      | (.ok _, c1) =>
        (match execRule n g l toks txt (rules.get ⟨i, h⟩) c1 gl cc node with
         | (.ok suppress, c2, gl2, node2, bus) =>
           (match drain rules bus (if suppress then i else i + 1) with
            | .exit m => (.ok m, c2, gl2, node2)
            | .next i2 => rulesLoop n g l toks txt rules i2 c2 gl2 cc node2)
         | (.err e, c2, gl2, node2, _) => (.err e, c2, gl2, node2)
         | (.panicked, c2, gl2, node2, _) => (.panicked, c2, gl2, node2)
         | (.timeout, c2, gl2, node2, _) => (.timeout, c2, gl2, node2))
      | (.err e, c1) => (.err e, c1, gl, node)
      | (.panicked, c1) => (.panicked, c1, gl, node)
      | (.timeout, c1) => (.timeout, c1, gl, node)
    else (.ok .Ok, c, gl, node)

/-- The body of one parse_rules loop iteration for a single rule, from
parser.rs.  Returns the suppress-advance flag (set by a matching While and
by Loop) and the messages the rule pushed onto the bus, newest first. -/
def execRule (fuel : Nat) (g : grammar.Grammar) (l : Lexer)
    (toks : List Tok) (txt : String) (rule : grammar.Rule) (c : Cursor)
    (gl : Globals) (cc : Cursor) (node : Node) :
    Res ParseError Bool × Cursor × Globals × Node × List Msg :=
  match fuel with
  | 0 => (.timeout, c, gl, node, [])
  | n + 1 =>
    match rule with
    | .Is token rules parameters =>
      (match match_token n g l toks txt token c gl cc with
       | (.ok (.Is val), c1, gl1) =>
         (match processOneOf n g l toks txt (.mk token rules parameters) val c1 gl1 cc node [] with
          | (.ok _, c2, gl2, node2, bus2) => (.ok false, c2, gl2, node2, bus2)
          | (.err e, c2, gl2, node2, bus2) => (.err e, c2, gl2, node2, bus2)
          | (.panicked, c2, gl2, node2, bus2) => (.panicked, c2, gl2, node2, bus2)
          | (.timeout, c2, gl2, node2, bus2) => (.timeout, c2, gl2, node2, bus2))
       | (.ok (.IsNot e), c1, gl1) => (.err e, c1, gl1, node, [])
       | (.err e, c1, gl1) => (.err e, c1, gl1, node, [])
       | (.panicked, c1, gl1) => (.panicked, c1, gl1, node, [])
       | (.timeout, c1, gl1) => (.timeout, c1, gl1, node, []))
    | .Isnt token rules _parameters =>
      (match match_token n g l toks txt token c gl cc with
       | (.ok (.Is _), c1, gl1) =>
         (match toks.get? c1.idx with
          | none => (.panicked, c1, gl1, node, [])
          | some t =>
            (.err ⟨.ExpectedToNotBe t.kind, t.location, some node⟩, cc, gl1, node, []))
       | (.ok (.IsNot _), c1, gl1) =>
         (match rulesLoop n g l toks txt rules 0 c1 gl1 cc node with
          | (.ok m, c2, gl2, node2) => (.ok false, c2, gl2, node2, [m])
          | (.err e, c2, gl2, node2) => (.err e, c2, gl2, node2, [])
          | (.panicked, c2, gl2, node2) => (.panicked, c2, gl2, node2, [])
          | (.timeout, c2, gl2, node2) => (.timeout, c2, gl2, node2, []))
       | (.err e, c1, gl1) => (.err e, c1, gl1, node, [])
       | (.panicked, c1, gl1) => (.panicked, c1, gl1, node, [])
       | (.timeout, c1, gl1) => (.timeout, c1, gl1, node, []))
    | .IsOneOf alts =>
      (match isOneOfLoop n g l toks txt alts c gl cc node [] with
       | (.ok found, c1, gl1, node1, bus1) =>
         if found then (.ok false, c1, gl1, node1, bus1)
         else
           (match toks.get? c1.idx with
            | none => (.panicked, c1, gl1, node1, bus1)
            | some t =>
              (.err ⟨.ExpectedOneOf (alts.map (·.token)) t.kind, t.location, some node1⟩,
               cc, gl1, node1, bus1))
       | (.err e, c1, gl1, node1, bus1) => (.err e, c1, gl1, node1, bus1)
       | (.panicked, c1, gl1, node1, bus1) => (.panicked, c1, gl1, node1, bus1)
       | (.timeout, c1, gl1, node1, bus1) => (.timeout, c1, gl1, node1, bus1))
    | .Maybe token is isnt parameters =>
      (match match_token n g l toks txt token c gl cc with
       | (.ok (.Is val), c1, gl1) =>
         (match processOneOf n g l toks txt (.mk token is parameters) val c1 gl1 cc node [] with
          | (.ok _, c2, gl2, node2, bus2) => (.ok false, c2, gl2, node2, bus2)
          | (.err e, c2, gl2, node2, bus2) => (.err e, c2, gl2, node2, bus2)
          | (.panicked, c2, gl2, node2, bus2) => (.panicked, c2, gl2, node2, bus2)
          | (.timeout, c2, gl2, node2, bus2) => (.timeout, c2, gl2, node2, bus2))
       | (.ok (.IsNot e), c1, gl1) =>
         if errNodeHard e then (.err e, c1, gl1, node, [])
         else
           (match rulesLoop n g l toks txt isnt 0 c1 gl1 cc node with
            | (.ok m, c2, gl2, node2) => (.ok false, c2, gl2, node2, [m])
            | (.err e2, c2, gl2, node2) => (.err e2, c2, gl2, node2, [])
            | (.panicked, c2, gl2, node2) => (.panicked, c2, gl2, node2, [])
            | (.timeout, c2, gl2, node2) => (.timeout, c2, gl2, node2, []))
       | (.err e, c1, gl1) => (.err e, c1, gl1, node, [])
       | (.panicked, c1, gl1) => (.panicked, c1, gl1, node, [])
       | (.timeout, c1, gl1) => (.timeout, c1, gl1, node, []))
    | .MaybeOneOf is_one_of isnt =>
      (match maybeOneOfLoop n g l toks txt is_one_of c gl cc node [] with
       | (.ok found, c1, gl1, node1, bus1) =>
         if found then (.ok false, c1, gl1, node1, bus1)
         else
           (match rulesLoop n g l toks txt isnt 0 c1 gl1 cc node1 with
            | (.ok m, c2, gl2, node2) => (.ok false, c2, gl2, node2, m :: bus1)
            | (.err e, c2, gl2, node2) => (.err e, c2, gl2, node2, bus1)
            | (.panicked, c2, gl2, node2) => (.panicked, c2, gl2, node2, bus1)
            | (.timeout, c2, gl2, node2) => (.timeout, c2, gl2, node2, bus1))
       | (.err e, c1, gl1, node1, bus1) => (.err e, c1, gl1, node1, bus1)
       | (.panicked, c1, gl1, node1, bus1) => (.panicked, c1, gl1, node1, bus1)
       | (.timeout, c1, gl1, node1, bus1) => (.timeout, c1, gl1, node1, bus1))
    | .While token rules parameters =>
      (match match_token n g l toks txt token c gl cc with
       | (.ok (.Is val), c1, gl1) =>
         (match processOneOf n g l toks txt (.mk token rules parameters) val c1 gl1 cc node [] with
          | (.ok _, c2, gl2, node2, bus2) => (.ok true, c2, gl2, node2, bus2)
          | (.err e, c2, gl2, node2, bus2) => (.err e, c2, gl2, node2, bus2)
          | (.panicked, c2, gl2, node2, bus2) => (.panicked, c2, gl2, node2, bus2)
          | (.timeout, c2, gl2, node2, bus2) => (.timeout, c2, gl2, node2, bus2))
       | (.ok (.IsNot e), c1, gl1) =>
         if errNodeHard e then (.err e, c1, gl1, node, [])
         else (.ok false, c1, gl1, node, [])
       | (.err e, c1, gl1) => (.err e, c1, gl1, node, [])
       | (.panicked, c1, gl1) => (.panicked, c1, gl1, node, [])
       | (.timeout, c1, gl1) => (.timeout, c1, gl1, node, []))
    | .Loop rules =>
      (match rulesLoop n g l toks txt rules 0 c gl cc node with
       | (.ok m, c1, gl1, node1) => (.ok true, c1, gl1, node1, [m])
       | (.err e, c1, gl1, node1) => (.err e, c1, gl1, node1, [])
       | (.panicked, c1, gl1, node1) => (.panicked, c1, gl1, node1, [])
       | (.timeout, c1, gl1, node1) => (.timeout, c1, gl1, node1, []))
    | .Until token rules parameters =>
      (match untilLoop n g l toks txt token c gl cc node with
       | (.ok _, c1, gl1) =>
         (match toks.get? c1.idx with
          | none => (.panicked, c1, gl1, node, [])
          | some t =>
            (match processOneOf n g l toks txt (.mk token rules parameters)
                     (.Token t) c1 gl1 cc node [] with
             | (.ok _, c2, gl2, node2, bus2) => (.ok false, c2, gl2, node2, bus2)
             | (.err e, c2, gl2, node2, bus2) => (.err e, c2, gl2, node2, bus2)
             | (.panicked, c2, gl2, node2, bus2) => (.panicked, c2, gl2, node2, bus2)
             | (.timeout, c2, gl2, node2, bus2) => (.timeout, c2, gl2, node2, bus2)))
       | (.err e, c1, gl1) => (.err e, c1, gl1, node, [])
       | (.panicked, c1, gl1) => (.panicked, c1, gl1, node, [])
       | (.timeout, c1, gl1) => (.timeout, c1, gl1, node, []))
    | .UntilOneOf alts =>
      (match untilOneOfLoop n g l toks txt alts c gl cc node [] with
       | (.ok found, c1, gl1, node1, bus1) =>
         if found then (.ok false, c1, gl1, node1, bus1)
         else
           (match toks.get? c1.idx with
            | none => (.panicked, c1, gl1, node1, bus1)
            | some t =>
              (.err ⟨.ExpectedOneOf (alts.map (·.token)) t.kind, t.location, some node1⟩,
               cc, gl1, node1, bus1))
       | (.err e, c1, gl1, node1, bus1) => (.err e, c1, gl1, node1, bus1)
       | (.panicked, c1, gl1, node1, bus1) => (.panicked, c1, gl1, node1, bus1)
       | (.timeout, c1, gl1, node1, bus1) => (.timeout, c1, gl1, node1, bus1))
    | .Command command =>
      (match command with
       | .Compare left right comparison rules =>
         (match mapGet node.vars left with
          | none =>
            ((errAt toks c.idx (.VariableNotFound left) (some node) :
                Res ParseError Bool), c, gl, node, [])
          | some lv =>
            match mapGet node.vars right with
            | none =>
              ((errAt toks c.idx (.VariableNotFound right) (some node) :
                  Res ParseError Bool), c, gl, node, [])
            | some rv =>
              if (compareComparisons lv rv).contains comparison then
                (match rulesLoop n g l toks txt rules 0 c gl cc node with
                 | (.ok m, c1, gl1, node1) => (.ok false, c1, gl1, node1, [m])
                 | (.err e, c1, gl1, node1) => (.err e, c1, gl1, node1, [])
                 | (.panicked, c1, gl1, node1) => (.panicked, c1, gl1, node1, [])
                 | (.timeout, c1, gl1, node1) => (.timeout, c1, gl1, node1, []))
              else (.ok false, c, gl, node, []))
       | .Error message =>
         ((errAt toks c.idx (.Message message) (some node) : Res ParseError Bool),
          c, gl, node, [])
       | .HardError set => (.ok false, c, gl, node.setHarderror set, [])
       | .Goto label => (.ok false, c, gl, node, [Msg.Goto label])
       | .Label _ => (.ok false, c, gl, node, [])
       | .Print _ => (.ok false, c, gl, node, []))

/-- Parser::match_token from parser.rs. -/
def match_token (fuel : Nat) (g : grammar.Grammar) (l : Lexer)
    (toks : List Tok) (txt : String) (token : grammar.MatchToken)
    (c : Cursor) (gl : Globals) (cc : Cursor) :
    Res ParseError TokenCompare × Cursor × Globals :=
  match fuel with
  | 0 => (.timeout, c, gl)
  | n + 1 =>
    match token with
    | .Token tk =>
      if tk = TokenKinds.Control .Eof ∧ toks.length ≤ c.idx then
        (.ok (.Is (.Token ⟨.Control .Eof, 0, 0, TextLocation.new 0 0⟩)), c, gl)
      else if toks.length ≤ c.idx then
        (match toks.get? (c.idx - 1) with
         | none => (.panicked, c, gl)
         | some t => (.ok (.IsNot ⟨.Eof, t.location, none⟩), c, gl))
      else
        (match skipWs toks c.idx with
         | none => (.panicked, c, gl)
         | some j =>
           match toks.get? j with
           | none => (.panicked, c, gl)
           | some t =>
             let c2 : Cursor := ⟨j, c.to_advance⟩
             if tk ≠ t.kind then
               (.ok (.IsNot ⟨.ExpectedToken tk t.kind, t.location, none⟩), c2, gl)
             else (.ok (.Is (.Token t)), c2, gl))
    | .Node name =>
      (match parse_node n g l toks txt name c gl with
       | (.ok nd, c1, gl1) => (.ok (.Is (.Node nd)), c1, gl1)
       | (.err (e, nd), c1, gl1) =>
         if nd.harderror then (.err e, c1, gl1) else (.ok (.IsNot e), c1, gl1)
       | (.panicked, c1, gl1) => (.panicked, c1, gl1)
       | (.timeout, c1, gl1) => (.timeout, c1, gl1))
    | .Word w =>
      (match skipWs toks c.idx with
       | none => (.panicked, c, gl)
       | some j =>
         match toks.get? j with
         | none => (.panicked, c, gl)
         | some t =>
           let c2 : Cursor := ⟨j, c.to_advance⟩
           match t.kind with
           | .Text =>
             if w ≠ l.stringify t txt then
               (.ok (.IsNot ⟨.ExpectedWord w t.kind, t.location, none⟩), c2, gl)
             else (.ok (.Is (.Token t)), c2, gl)
           | _ => (.ok (.IsNot ⟨.ExpectedWord w t.kind, t.location, none⟩), c2, gl))
    | .Enumerator name =>
      (match mapGet g.enumerators name with
       | none =>
         (match toks.get? c.idx with
          | none => (.panicked, c, gl)
          | some t => (.err ⟨.EnumeratorNotFound name, t.location, none⟩, c, gl))
       | some en => enumLoop n g l toks txt en.values en.values c c gl cc)
    | .Any =>
      (match toks.get? c.idx with
       | none => (.panicked, c, gl)
       | some t => (.ok (.Is (.Token t)), c, gl))

/-- The shared on-match code of the rule arms of parse_rules: apply the
parameters with the matched value, defer a cursor advance when the value is
a bare token, run the nested rules and push their result message onto the
bus.  parser.rs repeats this block verbatim in the Is, IsOneOf, Maybe,
MaybeOneOf, While, Until and UntilOneOf arms. -/
def processOneOf (fuel : Nat) (g : grammar.Grammar) (l : Lexer)
    (toks : List Tok) (txt : String) (alt : grammar.OneOf) (val : Nodes)
    (c : Cursor) (gl : Globals) (cc : Cursor) (node : Node)
    (bus : List Msg) : Res ParseError Unit × Cursor × Globals × Node × List Msg :=
  match fuel with
  | 0 => (.timeout, c, gl, node, bus)
  | n + 1 =>
    match parse_parameters toks alt.parameters c gl node val bus with
    | (.ok _, gl1, node1, bus1) =>
      let c1 := if val.is_token then Cursor.mk c.idx true else c
      (match rulesLoop n g l toks txt alt.rules 0 c1 gl1 cc node1 with
       | (.ok m, c2, gl2, node2) => (.ok (), c2, gl2, node2, m :: bus1)
       | (.err e, c2, gl2, node2) => (.err e, c2, gl2, node2, bus1)
       | (.panicked, c2, gl2, node2) => (.panicked, c2, gl2, node2, bus1)
       | (.timeout, c2, gl2, node2) => (.timeout, c2, gl2, node2, bus1))
    | (.err e, gl1, node1, bus1) => (.err e, c, gl1, node1, bus1)
    | (.panicked, gl1, node1, bus1) => (.panicked, c, gl1, node1, bus1)
    | (.timeout, gl1, node1, bus1) => (.timeout, c, gl1, node1, bus1)

/-- The alternatives loop of the IsOneOf arm of parse_rules.  A soft miss
whose error carries no node clears the pending cursor advance; a soft miss
whose error carries a node without harderror falls through unchanged; a
miss whose error carries a harderror node aborts. -/
def isOneOfLoop (fuel : Nat) (g : grammar.Grammar) (l : Lexer)
    (toks : List Tok) (txt : String) (alts : List grammar.OneOf)
    (c : Cursor) (gl : Globals) (cc : Cursor) (node : Node)
    (bus : List Msg) : Res ParseError Bool × Cursor × Globals × Node × List Msg :=
  match fuel with
  | 0 => (.timeout, c, gl, node, bus)
  | n + 1 =>
    match alts with
    | [] => (.ok false, c, gl, node, bus)
    | a :: rest =>
      match match_token n g l toks txt a.token c gl cc with
      | (.ok (.Is val), c1, gl1) =>
        (match processOneOf n g l toks txt a val c1 gl1 cc node bus with
         | (.ok _, c2, gl2, node2, bus2) => (.ok true, c2, gl2, node2, bus2)
         | (.err e, c2, gl2, node2, bus2) => (.err e, c2, gl2, node2, bus2)
         | (.panicked, c2, gl2, node2, bus2) => (.panicked, c2, gl2, node2, bus2)
         | (.timeout, c2, gl2, node2, bus2) => (.timeout, c2, gl2, node2, bus2))
      | (.ok (.IsNot e), c1, gl1) =>
        (match e.node with
         | some en =>
           if en.harderror then (.err e, c1, gl1, node, bus)
           else isOneOfLoop n g l toks txt rest c1 gl1 cc node bus
         | none => isOneOfLoop n g l toks txt rest (Cursor.mk c1.idx false) gl1 cc node bus)
      | (.err e, c1, gl1) => (.err e, c1, gl1, node, bus)
      | (.panicked, c1, gl1) => (.panicked, c1, gl1, node, bus)
      | (.timeout, c1, gl1) => (.timeout, c1, gl1, node, bus)

/-- The alternatives loop of the MaybeOneOf arm of parse_rules.  Unlike the
IsOneOf loop it leaves the cursor untouched on every soft miss. -/
def maybeOneOfLoop (fuel : Nat) (g : grammar.Grammar) (l : Lexer)
    (toks : List Tok) (txt : String) (alts : List grammar.OneOf)
    (c : Cursor) (gl : Globals) (cc : Cursor) (node : Node)
    (bus : List Msg) : Res ParseError Bool × Cursor × Globals × Node × List Msg :=
  match fuel with
  | 0 => (.timeout, c, gl, node, bus)
  | n + 1 =>
    match alts with
    | [] => (.ok false, c, gl, node, bus)
    | a :: rest =>
      match match_token n g l toks txt a.token c gl cc with
      | (.ok (.Is val), c1, gl1) =>
        (match processOneOf n g l toks txt a val c1 gl1 cc node bus with
         | (.ok _, c2, gl2, node2, bus2) => (.ok true, c2, gl2, node2, bus2)
         | (.err e, c2, gl2, node2, bus2) => (.err e, c2, gl2, node2, bus2)
         | (.panicked, c2, gl2, node2, bus2) => (.panicked, c2, gl2, node2, bus2)
         | (.timeout, c2, gl2, node2, bus2) => (.timeout, c2, gl2, node2, bus2))
      | (.ok (.IsNot e), c1, gl1) =>
        if errNodeHard e then (.err e, c1, gl1, node, bus)
        else maybeOneOfLoop n g l toks txt rest c1 gl1 cc node bus
      | (.err e, c1, gl1) => (.err e, c1, gl1, node, bus)
      | (.panicked, c1, gl1) => (.panicked, c1, gl1, node, bus)
      | (.timeout, c1, gl1) => (.timeout, c1, gl1, node, bus)

/-- The scan loop of the Until arm of parse_rules: advance one token at a
time until the target matches, failing with CouldNotFindToken at the end of
the token stream.  Soft misses are ignored regardless of any harderror flag
recorded in them. -/
def untilLoop (fuel : Nat) (g : grammar.Grammar) (l : Lexer)
    (toks : List Tok) (txt : String) (token : grammar.MatchToken)
    (c : Cursor) (gl : Globals) (cc : Cursor) (node : Node) :
    Res ParseError Unit × Cursor × Globals :=
  match fuel with
  | 0 => (.timeout, c, gl)
  | n + 1 =>
    match match_token n g l toks txt token c gl cc with
    | (.ok (.Is _), c1, gl1) => (.ok (), c1, gl1)
    | (.ok (.IsNot _), c1, gl1) =>
      let c2 : Cursor := ⟨c1.idx + 1, c1.to_advance⟩
      if toks.length ≤ c2.idx then
        (match toks.get? (c2.idx - 1) with
         | none => (.panicked, c2, gl1)
         | some t => (.err ⟨.CouldNotFindToken token, t.location, some node⟩, c2, gl1))
      else untilLoop n g l toks txt token c2 gl1 cc node
    | (.err e, c1, gl1) => (.err e, c1, gl1)
    | (.panicked, c1, gl1) => (.panicked, c1, gl1)
    | (.timeout, c1, gl1) => (.timeout, c1, gl1)

/-- The outer while loop of the UntilOneOf arm of parse_rules: at each
position try all alternatives, then advance by one token. -/
def untilOneOfLoop (fuel : Nat) (g : grammar.Grammar) (l : Lexer)
    (toks : List Tok) (txt : String) (alts : List grammar.OneOf)
    (c : Cursor) (gl : Globals) (cc : Cursor) (node : Node)
    (bus : List Msg) : Res ParseError Bool × Cursor × Globals × Node × List Msg :=
  match fuel with
  | 0 => (.timeout, c, gl, node, bus)
  | n + 1 =>
    if c.idx < toks.length then
      match scanAlts n g l toks txt alts c gl cc node bus with
      | (.ok true, c1, gl1, node1, bus1) => (.ok true, c1, gl1, node1, bus1)
      | (.ok false, c1, gl1, node1, bus1) =>
        untilOneOfLoop n g l toks txt alts (Cursor.mk (c1.idx + 1) c1.to_advance)
          gl1 cc node1 bus1
      | (.err e, c1, gl1, node1, bus1) => (.err e, c1, gl1, node1, bus1)
      | (.panicked, c1, gl1, node1, bus1) => (.panicked, c1, gl1, node1, bus1)
      | (.timeout, c1, gl1, node1, bus1) => (.timeout, c1, gl1, node1, bus1)
    else (.ok false, c, gl, node, bus)

/-- The inner alternatives loop of the UntilOneOf arm: like the MaybeOneOf
loop, a harderror recorded in a soft miss aborts, other soft misses fall
through to the next alternative. -/
def scanAlts (fuel : Nat) (g : grammar.Grammar) (l : Lexer)
    (toks : List Tok) (txt : String) (alts : List grammar.OneOf)
    (c : Cursor) (gl : Globals) (cc : Cursor) (node : Node)
    (bus : List Msg) : Res ParseError Bool × Cursor × Globals × Node × List Msg :=
  match fuel with
  | 0 => (.timeout, c, gl, node, bus)
  | n + 1 =>
    match alts with
    | [] => (.ok false, c, gl, node, bus)
    | a :: rest =>
      match match_token n g l toks txt a.token c gl cc with
      | (.ok (.Is val), c1, gl1) =>
        (match processOneOf n g l toks txt a val c1 gl1 cc node bus with
         | (.ok _, c2, gl2, node2, bus2) => (.ok true, c2, gl2, node2, bus2)
         | (.err e, c2, gl2, node2, bus2) => (.err e, c2, gl2, node2, bus2)
         | (.panicked, c2, gl2, node2, bus2) => (.panicked, c2, gl2, node2, bus2)
         | (.timeout, c2, gl2, node2, bus2) => (.timeout, c2, gl2, node2, bus2))
      | (.ok (.IsNot e), c1, gl1) =>
        if errNodeHard e then (.err e, c1, gl1, node, bus)
        else scanAlts n g l toks txt rest c1 gl1 cc node bus
      | (.err e, c1, gl1) => (.err e, c1, gl1, node, bus)
      | (.panicked, c1, gl1) => (.panicked, c1, gl1, node, bus)
      | (.timeout, c1, gl1) => (.timeout, c1, gl1, node, bus)

/-- The alternatives loop of the Enumerator arm of match_token: values are
tried in order against a cursor restored to the local clone after every
miss; a harderror recorded in a miss aborts with the restored cursor. -/
def enumLoop (fuel : Nat) (g : grammar.Grammar) (l : Lexer)
    (toks : List Tok) (txt : String) (valuesFull : List grammar.MatchToken)
    (values : List grammar.MatchToken) (ccl : Cursor) (c : Cursor)
    (gl : Globals) (cc : Cursor) :
    Res ParseError TokenCompare × Cursor × Globals :=
  match fuel with
  | 0 => (.timeout, c, gl)
  | n + 1 =>
    match values with
    | [] =>
      (match toks.get? c.idx with
       | none => (.panicked, c, gl)
       | some t =>
         (.ok (.IsNot ⟨.ExpectedOneOf valuesFull t.kind, t.location, none⟩), c, gl))
    | v :: rest =>
      match match_token n g l toks txt v c gl cc with
      | (.ok (.Is val), c1, gl1) => (.ok (.Is val), c1, gl1)
      | (.ok (.IsNot e), _, gl1) =>
        if errNodeHard e then (.err e, ccl, gl1)
        else enumLoop n g l toks txt valuesFull rest ccl ccl gl1 cc
      | (.err e, c1, gl1) => (.err e, c1, gl1)
      | (.panicked, c1, gl1) => (.panicked, c1, gl1)
      | (.timeout, c1, gl1) => (.timeout, c1, gl1)

end

/-- Parser::parse_rules from parser.rs: the loop started at rule index 0
with an empty message bus. -/
def parse_rules (fuel : Nat) (g : grammar.Grammar) (l : Lexer)
    (toks : List Tok) (txt : String) (rules : List grammar.Rule)
    (c : Cursor) (gl : Globals) (cc : Cursor) (node : Node) :
    Res ParseError Msg × Cursor × Globals × Node :=
  rulesLoop fuel g l toks txt rules 0 c gl cc node

/-- Parser::parse from parser.rs (together with the wrapper in lib.rs):
initialize the cursor and the globals, parse the entry node, then apply the
eof mode check. -/
def parse (fuel : Nat) (p : Parser) (g : grammar.Grammar) (l : Lexer)
    (toks : List Tok) (txt : String) : Res ParseError ParseResult :=
  match parse_node fuel g l toks txt p.entry ⟨0, false⟩
          (Node.variables_from_grammar g.globals) with
  | (.ok node, c1, gl1) =>
    if g.eof = false then .ok ⟨node, gl1⟩
    else
      (match toks.get? (eofSkip toks c1.idx) with
       | none => .panicked
       | some t =>
         if t.kind = TokenKinds.Control .Eof then .ok ⟨node, gl1⟩
         else .err ⟨.MissingEof t.kind, t.location, some node⟩)
  | (.err (e, _), _, _) => .err e
  | (.panicked, _, _) => .panicked
  | (.timeout, _, _) => .timeout

end parser

namespace grammar

namespace validator

/-- Validation error kinds, from the validator module of grammar.rs. -/
inductive ValidationErrors where
  | NodeNotFound (name : String)
  | EnumeratorNotFound (name : String)
  | VariableNotFound (name : String)
  | GlobalNotFound (name : String)
  | CantUseVariable (name : String)
  | EmptyToken
  | TokenNotFound (name : String)
  | DuplicateLabel (name : String)
  | LabelNotFound (name : String)
  | TokenCollision (name : String)
deriving DecidableEq

structure ValidationError where
  kind : ValidationErrors
  node_name : String
deriving DecidableEq

/-- Deprecated features, from grammar.rs (source spelling kept). -/
inductive Depricated where
  | Back
  | Any
deriving DecidableEq

inductive TokenErrors where
  | NotAscii
  | ContainsWhitespace
  | TooLong
  | StartsNumeric
deriving DecidableEq

inductive ValidationWarnings where
  | UnusedVariable (name : String)
  | UsedDebug
  | UsedPrint
  | UsedDepricated (d : Depricated)
  | UnusualToken (name : String) (e : TokenErrors)
  | UnusedLabel (name : String)
deriving DecidableEq

structure ValidationWarning where
  kind : ValidationWarnings
  node_name : String
deriving DecidableEq

structure ValidationResult where
  errors : List ValidationError
  warnings : List ValidationWarning
deriving DecidableEq

def ValidationResult.new : ValidationResult := ⟨[], []⟩

/-- ValidationResult::success from grammar.rs: no errors and no warnings. -/
def ValidationResult.success (r : ValidationResult) : Bool :=
  r.errors.isEmpty && r.warnings.isEmpty

/-- ValidationResult::pass from grammar.rs: no errors, warnings allowed. -/
def ValidationResult.pass (r : ValidationResult) : Bool :=
  r.errors.isEmpty

def addError (r : ValidationResult) (kind : ValidationErrors)
    (node_name : String) : ValidationResult :=
  { r with errors := r.errors ++ [⟨kind, node_name⟩] }

def addWarning (r : ValidationResult) (kind : ValidationWarnings)
    (node_name : String) : ValidationResult :=
  { r with warnings := r.warnings ++ [⟨kind, node_name⟩] }

/-- Label bookkeeping, from grammar.rs. -/
structure LostAndFound where
  lost_labels : List String
  found_labels : List String

def LostAndFound.new : LostAndFound := ⟨[], []⟩

/-- LostAndFound::pass from grammar.rs. -/
def LostAndFound.pass (laf : LostAndFound) (r : ValidationResult)
    (node_name : String) : ValidationResult :=
  let r1 := laf.lost_labels.foldl
    (fun acc looking =>
      if laf.found_labels.contains looking then acc
      else addError acc (.LabelNotFound looking) node_name) r
  laf.found_labels.foldl
    (fun acc found =>
      if laf.lost_labels.contains found then acc
      else addWarning acc (.UnusedLabel found) node_name) r1

/-- Lexer::validate_tokens from grammar.rs.  The Rust code unwraps
chars().next() after recording an EmptyToken error, so an empty literal
panics; that is the none outcome.  Rust is_numeric and byte length are
modelled with isDigit and utf8ByteSize. -/
def validate_tokens_go (all : List String) : List String → List String →
    ValidationResult → Option ValidationResult
  | [], _, r => some r
  | token :: more, seen, r =>
    if seen.contains token then validate_tokens_go all more seen r
    else
      let seen2 := seen ++ [token]
      let r1 := if 1 < all.count token then
          addError r (.TokenCollision token) "__lexer__" else r
      let r2 := if token.isEmpty then
          addError r1 .EmptyToken "__lexer__" else r1
      match token.toList with
      | [] => none
      | first :: _ =>
        let r3 := if first.isDigit then
            addWarning r2 (.UnusualToken token .StartsNumeric) "__lexer__" else r2
        let r4 := if token.toList.any (·.isWhitespace) then
            addWarning r3 (.UnusualToken token .ContainsWhitespace) "__lexer__" else r3
        let r5 := if 2 < token.utf8ByteSize then
            addWarning r4 (.UnusualToken token .TooLong) "__lexer__" else r4
        let r6 := if !(token.toList.all (fun ch => ch.toNat < 128)) then
            addWarning r5 (.UnusualToken token .NotAscii) "__lexer__" else r5
        validate_tokens_go all more seen2 r6

def validate_tokens (l : Lexer) (r : ValidationResult) :
    Option ValidationResult :=
  validate_tokens_go l.token_kinds l.token_kinds [] r

/-- Grammar::validate_token from grammar.rs. -/
def validate_token (g : Grammar) (token : MatchToken) (node : Node)
    (l : Lexer) (r : ValidationResult) : ValidationResult :=
  match token with
  | .Node name =>
    if (mapGet g.nodes name).isSome then r
    else addError r (.NodeNotFound name) node.name
  | .Enumerator enumerator =>
    if (mapGet g.enumerators enumerator).isSome then r
    else addError r (.EnumeratorNotFound enumerator) node.name
  | .Any => addWarning r (.UsedDepricated .Any) node.name
  | .Token kind =>
    (match kind with
     | .Token txt =>
       if txt.isEmpty then addError r .EmptyToken node.name
       else if l.token_kinds.any (fun k => k = txt) then r
       else addError r (.TokenNotFound txt) node.name
     | _ => r)
  | .Word _ => r

/-- Grammar::validate_parameters from grammar.rs. -/
def validate_parameters (g : Grammar) (parameters : List Parameters)
    (node : Node) (laf : LostAndFound) (r : ValidationResult) :
    LostAndFound × ValidationResult :=
  parameters.foldl
    (fun (st : LostAndFound × ValidationResult) parameter =>
      let (laf, r) := st
      match parameter with
      | .Set name =>
        (laf, match mapGet node.vars name with
         | some var =>
           (match var with
            | .Node => r
            | .NodeList => r
            | .Boolean => addError r (.CantUseVariable name) node.name
            | .Number => addError r (.CantUseVariable name) node.name)
         | none => addError r (.VariableNotFound name) node.name)
      | .Global name =>
        (laf, match mapGet g.globals name with
         | some var =>
           (match var with
            | .Node => r
            | .NodeList => r
            | .Boolean => addError r (.CantUseVariable name) node.name
            | .Number => addError r (.CantUseVariable name) node.name)
         | none => addError r (.GlobalNotFound name) node.name)
      | .Increment name =>
        (laf, match mapGet node.vars name with
         | some var =>
           (match var with
            | .Number => r
            | .Node => addError r (.CantUseVariable name) node.name
            | .NodeList => addError r (.CantUseVariable name) node.name
            | .Boolean => addError r (.CantUseVariable name) node.name)
         | none => addError r (.VariableNotFound name) node.name)
      | .Decrement name =>
        (laf, match mapGet node.vars name with
         | some var =>
           (match var with
            | .Number => r
            | .Node => addError r (.CantUseVariable name) node.name
            | .NodeList => addError r (.CantUseVariable name) node.name
            | .Boolean => addError r (.CantUseVariable name) node.name)
         | none => addError r (.VariableNotFound name) node.name)
      | .IncrementGlobal name =>
        (laf, match mapGet g.globals name with
         | some var =>
           (match var with
            | .Number => r
            | .Node => addError r (.CantUseVariable name) node.name
            | .NodeList => addError r (.CantUseVariable name) node.name
            | .Boolean => addError r (.CantUseVariable name) node.name)
         | none => addError r (.GlobalNotFound name) node.name)
      | .True name =>
        (laf, match mapGet node.vars name with
         | some var =>
           (match var with
            | .Boolean => r
            | .Node => addError r (.CantUseVariable name) node.name
            | .NodeList => addError r (.CantUseVariable name) node.name
            | .Number => addError r (.CantUseVariable name) node.name)
         | none => addError r (.VariableNotFound name) node.name)
      | .False name =>
        (laf, match mapGet node.vars name with
         | some var =>
           (match var with
            | .Boolean => r
            | .Node => addError r (.CantUseVariable name) node.name
            | .NodeList => addError r (.CantUseVariable name) node.name
            | .Number => addError r (.CantUseVariable name) node.name)
         | none => addError r (.VariableNotFound name) node.name)
      | .TrueGlobal name =>
        (laf, match mapGet g.globals name with
         | some var =>
           (match var with
            | .Boolean => r
            | .Node => addError r (.CantUseVariable name) node.name
            | .NodeList => addError r (.CantUseVariable name) node.name
            | .Number => addError r (.CantUseVariable name) node.name)
         | none => addError r (.GlobalNotFound name) node.name)
      | .FalseGlobal name =>
        (laf, match mapGet g.globals name with
         | some var =>
           (match var with
            | .Boolean => r
            | .Node => addError r (.CantUseVariable name) node.name
            | .NodeList => addError r (.CantUseVariable name) node.name
            | .Number => addError r (.CantUseVariable name) node.name)
         | none => addError r (.GlobalNotFound name) node.name)
      | .Print _ => (laf, addWarning r .UsedPrint node.name)
      | .Debug node_option =>
        let r1 := match node_option with
          | some name =>
            (match mapGet node.vars name with
             | some _ => r
             | none => addError r (.VariableNotFound name) node.name)
          | none => r
        (laf, addWarning r1 .UsedDebug node.name)
      | .Back _ => (laf, addWarning r (.UsedDepricated .Back) node.name)
      | .Return => (laf, r)
      | .Break _ => (laf, r)
      | .HardError _ => (laf, r)
      | .Goto label => ({ laf with lost_labels := laf.lost_labels ++ [label] }, r)
      | .NodeStart => (laf, r)
      | .NodeEnd => (laf, r))
    (laf, r)

mutual

/-- Grammar::validate_rule from grammar.rs, with fuel for the nested rule
recursion; none is returned only on fuel exhaustion. -/
def validate_rule (fuel : Nat) (g : Grammar) (rule : Rule) (node : Node)
    (l : Lexer) (laf : LostAndFound) (r : ValidationResult) :
    Option (LostAndFound × ValidationResult) :=
  match fuel with
  | 0 => none
  | n + 1 =>
    match rule with
    | .Is token rules parameters =>
      let r1 := validate_token g token node l r
      let (laf1, r2) := validate_parameters g parameters node laf r1
      validate_rules_list n g rules node l laf1 r2
    | .Isnt token rules parameters =>
      let r1 := validate_token g token node l r
      let (laf1, r2) := validate_parameters g parameters node laf r1
      validate_rules_list n g rules node l laf1 r2
    | .IsOneOf tokens => validate_one_of_list n g tokens node l laf r
    | .Maybe token is isnt parameters =>
      let r1 := validate_token g token node l r
      let (laf1, r2) := validate_parameters g parameters node laf r1
      match validate_rules_list n g is node l laf1 r2 with
      | none => none
      | some (laf2, r3) => validate_rules_list n g isnt node l laf2 r3
    | .MaybeOneOf is_one_of isnt =>
      match validate_one_of_list n g is_one_of node l laf r with
      | none => none
      | some (laf1, r1) => validate_rules_list n g isnt node l laf1 r1
    | .While token rules parameters =>
      let r1 := validate_token g token node l r
      let (laf1, r2) := validate_parameters g parameters node laf r1
      validate_rules_list n g rules node l laf1 r2
    | .Loop rules => validate_rules_list n g rules node l laf r
    | .Until token rules parameters =>
      let r1 := validate_token g token node l r
      let (laf1, r2) := validate_parameters g parameters node laf r1
      validate_rules_list n g rules node l laf1 r2
    | .UntilOneOf tokens => validate_one_of_list n g tokens node l laf r
    | .Command command =>
      match command with
      | .Compare left right _ rules =>
        let r1 := match mapGet g.globals left with
          | some var =>
            (match var with
             | .Number => r
             | _ => addError r (.CantUseVariable left) node.name)
          | none => addError r (.GlobalNotFound left) node.name
        let r2 := match mapGet g.globals right with
          | some var =>
            (match var with
             | .Number => r1
             | _ => addError r1 (.CantUseVariable right) node.name)
          | none => addError r1 (.GlobalNotFound right) node.name
        validate_rules_list n g rules node l laf r2
      | .Error _ => some (laf, r)
      | .HardError _ => some (laf, r)
      | .Goto label => some ({ laf with lost_labels := laf.lost_labels ++ [label] }, r)
      | .Label name =>
        let r1 := if laf.found_labels.contains name then
            addError r (.DuplicateLabel name) node.name else r
        some ({ laf with found_labels := laf.found_labels ++ [name] }, r1)
      | .Print _ => some (laf, r)

def validate_rules_list (fuel : Nat) (g : Grammar) (rules : List Rule)
    (node : Node) (l : Lexer) (laf : LostAndFound) (r : ValidationResult) :
    Option (LostAndFound × ValidationResult) :=
  match fuel with
  | 0 => none
  | n + 1 =>
    match rules with
    | [] => some (laf, r)
    | rule :: rest =>
      match validate_rule n g rule node l laf r with
      | none => none
      | some (laf1, r1) => validate_rules_list n g rest node l laf1 r1

def validate_one_of_list (fuel : Nat) (g : Grammar) (alts : List OneOf)
    (node : Node) (l : Lexer) (laf : LostAndFound) (r : ValidationResult) :
    Option (LostAndFound × ValidationResult) :=
  match fuel with
  | 0 => none
  | n + 1 =>
    match alts with
    | [] => some (laf, r)
    | a :: rest =>
      let r1 := validate_token g a.token node l r
      let (laf1, r2) := validate_parameters g a.parameters node laf r1
      match validate_rules_list n g a.rules node l laf1 r2 with
      | none => none
      | some (laf2, r3) => validate_one_of_list n g rest node l laf2 r3

end

/-- Grammar::validate_node from grammar.rs. -/
def validate_node (fuel : Nat) (g : Grammar) (node : Node) (l : Lexer)
    (r : ValidationResult) : Option ValidationResult :=
  match validate_rules_list fuel g node.rules node l LostAndFound.new r with
  | none => none
  | some (laf, r1) => some (laf.pass r1 node.name)

/-- Grammar::validate from grammar.rs: lexer token checks followed by the
per-node checks, in the order the nodes are stored. -/
def validate (fuel : Nat) (g : Grammar) (l : Lexer) :
    Option ValidationResult :=
  match validate_tokens l ValidationResult.new with
  | none => none
  | some r0 =>
    (g.nodes.map (·.2)).foldl
      (fun acc node =>
        match acc with
        | none => none
        | some r => validate_node fuel g node l r)
      (some r0)

end validator

end grammar

namespace parser

/-- True exactly on the panicked outcome. -/
def Res.isPanicked {ε α : Type} : Res ε α → Bool
  | .panicked => true
  | _ => false

/-- Error kinds produced only when a control message escapes parse_rules at
the node boundary (lines 149 to 172 of parser.rs); these are the error
paths of parse_node that do not restore the cursor. -/
def ParseErrors.isControlEscape : ParseErrors → Bool
  | .CannotBreak _ => true
  | .CannotGoBack _ => true
  | .LabelNotFound _ => true
  | _ => false

/-- True when the outcome is an error of kind VariableNotFound with the
given name. -/
def errIsVariableNotFound {α : Type} (r : Res ParseError α) (name : String) : Bool :=
  match r with
  | .err e =>
    (match e.kind with
     | .VariableNotFound n => n = name
     | _ => false)
  | _ => false

/-- True when the outcome is an error of kind CouldNotFindToken carrying
the given match token. -/
def errIsCouldNotFindToken {α : Type} (r : Res ParseError α)
    (tok : grammar.MatchToken) : Bool :=
  match r with
  | .err e =>
    (match e.kind with
     | .CouldNotFindToken t => t = tok
     | _ => false)
  | _ => false

/-- Reads a Number global out of a successful parse outcome. -/
def resultGlobalNumber (r : Res ParseError ParseResult) (k : String) :
    Option Int :=
  match r with
  | .ok pr =>
    (match mapGet pr.globals k with
     | some (.Number v) => some v
     | _ => none)
  | _ => none

end parser

namespace grammar.validator

/-- Pass verdict of an optional validation outcome; false when validation
panicked or ran out of fuel. -/
def optPass (r : Option ValidationResult) : Bool :=
  match r with
  | some r => r.pass
  | none => false

end grammar.validator

namespace parser

lemma skipWsGo_spec (l : List Tok) : ∀ i j, skipWsGo l i = some j →
    i ≤ j ∧ ∀ k, i ≤ k → k < j →
      ∃ t, l.get? (k - i) = some t ∧ t.kind.is_whitespace = true := by
  induction l with
  | nil => intro i j h; simp [skipWsGo] at h
  | cons t rest ih =>
    intro i j h
    simp only [skipWsGo] at h
    by_cases hw : t.kind.is_whitespace
    · rw [if_pos hw] at h
      obtain ⟨h1, h2⟩ := ih (i + 1) j h
      refine ⟨by omega, fun k hk1 hk2 => ?_⟩
      rcases Nat.eq_or_lt_of_le hk1 with heq | hlt
      · refine ⟨t, ?_, hw⟩
        rw [show k - i = 0 by omega]
        rfl
      · obtain ⟨t2, ht2, hw2⟩ := h2 k (by omega) hk2
        refine ⟨t2, ?_, hw2⟩
        rw [show k - i = (k - (i + 1)) + 1 by omega]
        simpa using ht2
    · rw [if_neg hw] at h
      obtain rfl : i = j := by simpa using h
      exact ⟨le_refl i, fun k hk1 hk2 => absurd hk2 (by omega)⟩

lemma skipWs_spec (toks : List Tok) (i j : Nat) (h : skipWs toks i = some j) :
    i ≤ j ∧ ∀ k, i ≤ k → k < j →
      ∃ t, toks.get? k = some t ∧ t.kind.is_whitespace = true := by
  obtain ⟨h1, h2⟩ := skipWsGo_spec (toks.drop i) i j h
  refine ⟨h1, fun k hk1 hk2 => ?_⟩
  obtain ⟨t, ht, hw⟩ := h2 k hk1 hk2
  rw [List.get?_drop, show i + (k - i) = k by omega] at ht
  exact ⟨t, ht, hw⟩

lemma eofSkipGo_spec (l : List Tok) : ∀ i,
    i ≤ eofSkipGo l i ∧ ∀ k, i ≤ k → k < eofSkipGo l i →
      ∃ t, l.get? (k - i) = some t ∧ t.kind.is_whitespace = true := by
  induction l with
  | nil => intro i; exact ⟨le_refl i, fun k hk1 hk2 => absurd hk2 (by simp [eofSkipGo]; omega)⟩
  | cons t rest ih =>
    intro i
    by_cases hw : t.kind.is_whitespace
    · have h1 := (ih (i + 1)).1
      have h2 := (ih (i + 1)).2
      have hgo : eofSkipGo (t :: rest) i = eofSkipGo rest (i + 1) := by
        simp [eofSkipGo, hw]
      rw [hgo]
      refine ⟨by omega, fun k hk1 hk2 => ?_⟩
      rcases Nat.eq_or_lt_of_le hk1 with heq | hlt
      · refine ⟨t, ?_, hw⟩
        rw [show k - i = 0 by omega]
        rfl
      · obtain ⟨t2, ht2, hw2⟩ := h2 k (by omega) hk2
        refine ⟨t2, ?_, hw2⟩
        rw [show k - i = (k - (i + 1)) + 1 by omega]
        simpa using ht2
    · have hgo : eofSkipGo (t :: rest) i = i := by simp [eofSkipGo, hw]
      rw [hgo]
      exact ⟨le_refl i, fun k hk1 hk2 => absurd hk2 (by omega)⟩

lemma eofSkip_spec (toks : List Tok) (i : Nat) :
    i ≤ eofSkip toks i ∧ ∀ k, i ≤ k → k < eofSkip toks i →
      ∃ t, toks.get? k = some t ∧ t.kind.is_whitespace = true := by
  obtain ⟨h1, h2⟩ := eofSkipGo_spec (toks.drop i) i
  refine ⟨h1, fun k hk1 hk2 => ?_⟩
  obtain ⟨t, ht, hw⟩ := h2 k hk1 hk2
  rw [List.get?_drop, show i + (k - i) = k by omega] at ht
  exact ⟨t, ht, hw⟩

lemma enumLoop_isNot_cursor (g : grammar.Grammar) (l : Lexer)
    (toks : List Tok) (txt : String) (vF : List grammar.MatchToken)
    (cc : Cursor) : ∀ fuel vs ccl c gl e c2 gl2,
    enumLoop fuel g l toks txt vF vs ccl c gl cc = (.ok (.IsNot e), c2, gl2) →
    c2 = c ∨ c2 = ccl := by
  intro fuel
  induction fuel with
  | zero => intro vs ccl c gl e c2 gl2 h; simp [enumLoop] at h
  | succ n ih =>
    intro vs ccl c gl e c2 gl2 h
    match vs with
    | [] =>
      simp only [enumLoop] at h
      split at h
      · simp at h
      · exact Or.inl (congrArg (fun x => x.2.1) h).symm
    | v :: rest =>
      simp only [enumLoop] at h
      split at h
      · simp at h
      · split at h
        · simp at h
        · exact Or.inr ((ih rest ccl ccl _ e c2 gl2 h).elim id id)
      · simp at h
      · simp at h
      · simp at h

end parser

namespace parser

/-- Literal token fixture. -/
def tokOf (s : String) (i : Nat) : Tok := ⟨.Token s, i, 1, ⟨1, i⟩⟩

/-- Text token fixture. -/
def tokText (i : Nat) : Tok := ⟨.Text, i, 1, ⟨1, i⟩⟩

/-- Whitespace token fixture. -/
def tokWs (i : Nat) : Tok := ⟨.Whitespace, i, 1, ⟨1, i⟩⟩

/-- Eof control token fixture. -/
def tokEof (i : Nat) : Tok := ⟨.Control .Eof, i, 0, ⟨1, i⟩⟩

def c1Entry : grammar.Node :=
  ⟨"entry", [.Command (.Compare "g" "g" .Equal [])], []⟩

def c1Grammar : grammar.Grammar :=
  ⟨[("entry", c1Entry)], [], [("g", .Number)], false⟩

def c1Lexer : Lexer := ⟨[]⟩

def c1Tokens : List Tok := [tokEof 0]

/-- C1: the claim states that a grammar accepted by validator.pass() never
produces a NodeNotFound, EnumeratorNotFound, VariableNotFound or
LabelNotFound parse error.  The code violates it: the validator checks the
operands of a Compare command against the grammar globals (grammar.rs lines
484 to 513) while the parser resolves them in the node-local variables
(parser.rs lines 670 to 689).  The grammar below declares g as a Number
global and compares g with g inside the entry node; validation passes with
no errors, yet parsing returns VariableNotFound g. -/
theorem claim_C1_validator_runtime_gap :
    grammar.validator.optPass (grammar.validator.validate 100 c1Grammar c1Lexer) = true
    ∧ errIsVariableNotFound (parse 100 ⟨"entry"⟩ c1Grammar c1Lexer c1Tokens "") "g"
        = true := by
  exact ⟨rfl, rfl⟩

def c2UntilEntry : grammar.Node :=
  ⟨"entry", [.Until (.Token (.Token "+")) [] []], []⟩

def c2UntilGrammar : grammar.Grammar :=
  ⟨[("entry", c2UntilEntry)], [], [], false⟩

def c2OneOfEntry : grammar.Node :=
  ⟨"entry", [.UntilOneOf [.mk (.Token (.Token "+")) [] []]], []⟩

def c2OneOfGrammar : grammar.Grammar :=
  ⟨[("entry", c2OneOfEntry)], [], [], false⟩

def c2Lexer : Lexer := ⟨["+"]⟩

def c2Tokens : List Tok := [tokText 0, tokEof 1]

/-- C2: on a token stream with no plus token, an Until rule searching for
plus fails with CouldNotFindToken carrying the searched match token as the
claim states, but the equivalent UntilOneOf rule panics: after its scan
loop leaves the cursor at tokens.len(), the not-found branch evaluates
tokens[cursor.idx] to build its ExpectedOneOf error (parser.rs lines 872
to 883), an out-of-bounds index. -/
theorem claim_C2_untiloneof_end_of_stream :
    errIsCouldNotFindToken (parse 100 ⟨"entry"⟩ c2UntilGrammar c2Lexer c2Tokens "a")
        (.Token (.Token "+")) = true
    ∧ Res.isPanicked (parse 100 ⟨"entry"⟩ c2OneOfGrammar c2Lexer c2Tokens "a") = true := by
  exact ⟨rfl, rfl⟩

/-- C9: the parameters list of an Isnt rule is never applied: the execution
of an Isnt rule is one and the same function of the state for any two
parameter lists, on match (failure) and on miss (nested rules) alike, so
no node attribute write, no global write and no control message can come
from those parameters. -/
theorem claim_C9_isnt_parameters_never_applied :
    ∀ fuel g l toks txt token rules p1 p2 c gl cc node,
    execRule fuel g l toks txt (.Isnt token rules p1) c gl cc node
      = execRule fuel g l toks txt (.Isnt token rules p2) c gl cc node := by
  intro fuel g l toks txt token rules p1 p2 c gl cc node
  cases fuel with
  | zero => rfl
  | succ n => rfl

end parser

namespace parser

/-- Failure path of parse_node (line 177 of parser.rs): unless the error is
one of the control-escape kinds, which are produced on a different path
without a restore, the returned cursor is the entry cursor.  Nothing else
of the state is restored. -/
lemma parse_node_err_restores_cursor :
    ∀ fuel g l toks txt name c gl e nd c2 gl2,
    parse_node fuel g l toks txt name c gl = (.err (e, nd), c2, gl2) →
    ParseErrors.isControlEscape e.kind = false → c2 = c := by
  intro fuel g l toks txt name c gl e nd c2 gl2 h hesc
  cases fuel with
  | zero => simp [parse_node] at h
  | succ n =>
    rcases hfg : Node.from_grammar g name with _ | node0
    · simp only [parse_node, hfg] at h
      simp at h
      exact h.2.1.symm
    · rcases hget : toks.get? c.idx with _ | t0
      · simp only [parse_node, hfg, hget] at h
        simp at h
      · rcases hmg : mapGet g.nodes name with _ | gn
        · simp only [parse_node, hfg, hget, hmg] at h
          simp at h
          exact h.2.1.symm
        · rcases hR : rulesLoop n g l toks txt gn.rules 0 c gl c (node0.setFirst t0.index)
            with ⟨r, cx, glx, nodex⟩
          simp only [parse_node, hfg, hget, hmg, hR] at h
          split at h
          · simp at h
          · cases r with
            | ok m =>
              cases m with
              | Ok => simp at h
              | Return => simp at h
              | Break bn =>
                simp only [] at h
                split at h
                · simp at h
                · simp at h
                  obtain ⟨⟨he, -⟩, -, -⟩ := h
                  rw [← he] at hesc
                  simp [ParseErrors.isControlEscape] at hesc
              | Back steps =>
                simp only [] at h
                split at h
                · simp at h
                · simp at h
                  obtain ⟨⟨he, -⟩, -, -⟩ := h
                  rw [← he] at hesc
                  simp [ParseErrors.isControlEscape] at hesc
              | Goto label =>
                simp only [] at h
                split at h
                · simp at h
                · simp at h
                  obtain ⟨⟨he, -⟩, -, -⟩ := h
                  rw [← he] at hesc
                  simp [ParseErrors.isControlEscape] at hesc
            | err e2 =>
              simp at h
              exact h.2.1.symm
            | panicked => simp at h
            | timeout => simp at h

def c8NodeA : grammar.Node :=
  ⟨"a", [.Is (.Token (.Token "+")) [] [.IncrementGlobal "g"],
         .Is (.Token (.Token "-")) [] []], []⟩

def c8Entry : grammar.Node := ⟨"entry", [.Maybe (.Node "a") [] [] []], []⟩

def c8Grammar : grammar.Grammar :=
  ⟨[("a", c8NodeA), ("entry", c8Entry)], [], [("g", .Number)], false⟩

def c8Lexer : Lexer := ⟨["+"]⟩

def c8Tokens : List Tok := [tokOf "+" 0, tokOf "+" 1, tokEof 2]

def c8FailErr : ParseError :=
  ⟨.ExpectedToken (.Token "-") (.Token "+"), ⟨1, 1⟩, none⟩

def c8FailNode : Node := .mk "a" [] 0 2 false

def c8FailGlobals : Globals := [("g", .Number 1)]

/-- C8: global writes made during a node attempt that later fails softly
are not rolled back.  First conjunct: on a non-escape failure parse_node
restores only the cursor (the globals are whatever the rule run produced).
Second conjunct: in the concrete grammar, node a increments the global g,
then fails; the failure result carries the entry cursor together with g
already incremented to 1.  Third conjunct: the enclosing Maybe discards
the attempt, yet the final ParseResult globals still show g equal 1. -/
theorem claim_C8_globals_survive_backtracking :
    (∀ fuel g l toks txt name c gl e nd c2 gl2,
       parse_node fuel g l toks txt name c gl = (.err (e, nd), c2, gl2) →
       ParseErrors.isControlEscape e.kind = false → c2 = c)
    ∧ parse_node 100 c8Grammar c8Lexer c8Tokens "++" "a" ⟨0, false⟩
        (Node.variables_from_grammar c8Grammar.globals)
        = (.err (c8FailErr, c8FailNode), ⟨0, false⟩, c8FailGlobals)
    ∧ resultGlobalNumber (parse 100 ⟨"entry"⟩ c8Grammar c8Lexer c8Tokens "++") "g"
        = some 1 :=
  ⟨parse_node_err_restores_cursor, rfl, rfl⟩

/-- Witness for C8: the first conjunct applied to the concrete failing run
of node a, discharging both hypotheses by computation. -/
theorem claim_C8_witness :
    (parse_node 100 c8Grammar c8Lexer c8Tokens "++" "a" ⟨0, false⟩
       (Node.variables_from_grammar c8Grammar.globals)).2.1 = ⟨0, false⟩ := by
  have h : parse_node 100 c8Grammar c8Lexer c8Tokens "++" "a" ⟨0, false⟩
      (Node.variables_from_grammar c8Grammar.globals)
      = (.err (c8FailErr, c8FailNode), ⟨0, false⟩, c8FailGlobals) := rfl
  have h2 := claim_C8_globals_survive_backtracking.1 100 c8Grammar c8Lexer
      c8Tokens "++" "a" ⟨0, false⟩ (Node.variables_from_grammar c8Grammar.globals)
      c8FailErr c8FailNode ⟨0, false⟩ c8FailGlobals h rfl
  exact (congrArg (fun x => x.2.1) h).trans h2

end parser

namespace parser

def c3Tokens : List Tok := [tokWs 0, tokText 1, tokEof 2]

def c3Grammar : grammar.Grammar := ⟨[], [], [], false⟩

def c3Lexer : Lexer := ⟨[]⟩

/-- C3 counterexample: the claim says the cursor immediately after a soft
failed attempt equals its value immediately before the attempt.  On a token
stream starting with a whitespace token, the attempt of the alternative
Token minus inside an IsOneOf rule skips the whitespace before comparing
and leaves the skip in place on the miss: the attempt starts at index 0 and
ends at index 1, and the IsOneOf alternatives loop hands index 1, not 0, to
whatever follows. -/
theorem claim_C3_counterexample :
    match_token 100 c3Grammar c3Lexer c3Tokens "  a" (.Token (.Token "-"))
        ⟨0, false⟩ [] ⟨0, false⟩
      = (.ok (.IsNot ⟨.ExpectedToken (.Token "-") .Text, ⟨1, 1⟩, none⟩), ⟨1, false⟩, [])
    ∧ isOneOfLoop 100 c3Grammar c3Lexer c3Tokens "  a"
        [.mk (.Token (.Token "-")) [] []] ⟨0, false⟩ [] ⟨0, false⟩ (Node.new "x") []
      = (.ok false, ⟨1, false⟩, [], Node.new "x", [])
    ∧ (Cursor.mk 1 false ≠ Cursor.mk 0 false) :=
  ⟨rfl, rfl, by decide⟩

/-- C3 as amended: after a soft failed match attempt whose error kind is
not a control escape, the pending-advance flag is unchanged and the cursor
has moved forward only across tokens that satisfy is_whitespace (skipped
by match_token before the comparison); for a Node attempt the cursor is
exactly the pre-attempt cursor.  In particular the next alternative of an
IsOneOf or Maybe starts at the same non-whitespace token. -/
theorem claim_C3_cursor_after_soft_failure :
    ∀ fuel g l toks txt tok c gl cc e c2 gl2,
    match_token fuel g l toks txt tok c gl cc = (.ok (.IsNot e), c2, gl2) →
    ParseErrors.isControlEscape e.kind = false →
    c2.to_advance = c.to_advance ∧ c.idx ≤ c2.idx
    ∧ (∀ k, c.idx ≤ k → k < c2.idx →
        ∃ t, toks.get? k = some t ∧ t.kind.is_whitespace = true)
    ∧ (∀ name, tok = grammar.MatchToken.Node name → c2 = c) := by
  intro fuel g l toks txt tok c gl cc e c2 gl2 h hesc
  cases fuel with
  | zero => simp [match_token] at h
  | succ n =>
    cases tok with
    | Token tk =>
      simp only [match_token] at h
      split at h
      · simp at h
      · split at h
        · split at h
          · simp at h
          · simp at h
            obtain ⟨-, hc, -⟩ := h
            subst hc
            exact ⟨rfl, le_refl _, fun k hk1 hk2 => absurd hk2 (by omega), by simp⟩
        · rcases hskip : skipWs toks c.idx with _ | j
          · simp only [hskip] at h; simp at h
          · simp only [hskip] at h
            rcases hget : toks.get? j with _ | t
            · simp only [hget] at h; simp at h
            · simp only [hget] at h
              split at h
              · simp at h
                obtain ⟨-, hc, -⟩ := h
                subst hc
                obtain ⟨hle, hint⟩ := skipWs_spec toks c.idx j hskip
                exact ⟨rfl, hle, hint, by simp⟩
              · simp at h
    | Node name =>
      simp only [match_token] at h
      rcases hpn : parse_node n g l toks txt name c gl with ⟨r, cx, glx⟩
      simp only [hpn] at h
      cases r with
      | ok nd => simp at h
      | err p =>
        obtain ⟨e1, nd1⟩ := p
        simp only [] at h
        split at h
        · simp at h
        · simp at h
          obtain ⟨he, hc, hgl⟩ := h
          have hrest : cx = c := parse_node_err_restores_cursor n g l toks txt name c gl
            e1 nd1 cx glx hpn (by rw [he]; exact hesc)
          have hc2 : c2 = c := hc ▸ hrest
          subst hc2
          exact ⟨rfl, le_refl _, fun k hk1 hk2 => absurd hk2 (by omega), fun _ _ => rfl⟩
      | panicked => simp at h
      | timeout => simp at h
    | Word w =>
      simp only [match_token] at h
      rcases hskip : skipWs toks c.idx with _ | j
      · simp only [hskip] at h; simp at h
      · simp only [hskip] at h
        rcases hget : toks.get? j with _ | t
        · simp only [hget] at h; simp at h
        · simp only [hget] at h
          obtain ⟨hle, hint⟩ := skipWs_spec toks c.idx j hskip
          split at h
          · split at h
            · simp at h
              obtain ⟨-, hc, -⟩ := h
              subst hc
              exact ⟨rfl, hle, hint, by simp⟩
            · simp at h
          · simp at h
            obtain ⟨-, hc, -⟩ := h
            subst hc
            exact ⟨rfl, hle, hint, by simp⟩
    | Enumerator nm =>
      simp only [match_token] at h
      split at h
      · split at h
        · simp at h
        · simp at h
      · have := enumLoop_isNot_cursor g l toks txt _ cc n _ c c gl e c2 gl2 h
        have hc : c2 = c := this.elim id id
        subst hc
        exact ⟨rfl, le_refl _, fun k hk1 hk2 => absurd hk2 (by omega), by simp⟩
    | Any =>
      simp only [match_token] at h
      split at h
      · simp at h
      · simp at h

/-- Witness for the amended C3: the theorem applied to the concrete failed
attempt of Token minus over a stream beginning with one whitespace token. -/
theorem claim_C3_witness :
    (Cursor.mk 1 false).to_advance = (Cursor.mk 0 false).to_advance
    ∧ (0 : Nat) ≤ 1
    ∧ (∀ k, 0 ≤ k → k < 1 →
        ∃ t, c3Tokens.get? k = some t ∧ t.kind.is_whitespace = true) := by
  have h := claim_C3_cursor_after_soft_failure 100 c3Grammar c3Lexer c3Tokens "  a"
    (.Token (.Token "-")) ⟨0, false⟩ [] ⟨0, false⟩
    ⟨.ExpectedToken (.Token "-") .Text, ⟨1, 1⟩, none⟩ ⟨1, false⟩ [] rfl rfl
  exact ⟨h.1, h.2.1, h.2.2.1⟩

end parser

namespace parser

/-- C4: error-severity propagation.  Conjunct 1 is the node boundary: a
failed node is promoted to a propagating error exactly when its harderror
flag is set, and otherwise surfaces as a soft IsNot.  Conjuncts 2 to 6 show
that a soft result whose error records a harderror node aborts IsOneOf,
MaybeOneOf, Maybe, While and Enumerator processing with that error, with no
further alternative and no isnt branch tried (the right hand sides do not
mention the remaining alternatives or the isnt rules).  Conjuncts 7 to 11
show that an already-promoted error from the match attempt likewise aborts
each of those five constructs at once.  Conjuncts 12 to 16 show that when
no harderror is recorded the construct goes on to its next option.
Conjunct 17 shows that a propagating error from a rule ends the whole rule
list with that error. -/
theorem claim_C4_harderror_propagation :
    (∀ fuel g l toks txt name c cc gl e nd c2 gl2,
       parse_node fuel g l toks txt name c gl = (.err (e, nd), c2, gl2) →
       match_token (fuel + 1) g l toks txt (.Node name) c gl cc
         = (if nd.harderror then (.err e, c2, gl2) else (.ok (.IsNot e), c2, gl2)))
    ∧ (∀ fuel g l toks txt a rest c gl cc node bus e c1 gl1 en,
       match_token fuel g l toks txt (grammar.OneOf.token a) c gl cc
         = (.ok (.IsNot e), c1, gl1) →
       e.node = some en → en.harderror = true →
       isOneOfLoop (fuel + 1) g l toks txt (a :: rest) c gl cc node bus
         = (.err e, c1, gl1, node, bus))
    ∧ (∀ fuel g l toks txt a rest c gl cc node bus e c1 gl1,
       match_token fuel g l toks txt (grammar.OneOf.token a) c gl cc
         = (.ok (.IsNot e), c1, gl1) →
       errNodeHard e = true →
       maybeOneOfLoop (fuel + 1) g l toks txt (a :: rest) c gl cc node bus
         = (.err e, c1, gl1, node, bus))
    ∧ (∀ fuel g l toks txt tok is isnt ps c gl cc node e c1 gl1,
       match_token fuel g l toks txt tok c gl cc = (.ok (.IsNot e), c1, gl1) →
       errNodeHard e = true →
       execRule (fuel + 1) g l toks txt (.Maybe tok is isnt ps) c gl cc node
         = (.err e, c1, gl1, node, []))
    ∧ (∀ fuel g l toks txt tok rules ps c gl cc node e c1 gl1,
       match_token fuel g l toks txt tok c gl cc = (.ok (.IsNot e), c1, gl1) →
       errNodeHard e = true →
       execRule (fuel + 1) g l toks txt (.While tok rules ps) c gl cc node
         = (.err e, c1, gl1, node, []))
    ∧ (∀ fuel g l toks txt vF v rest ccl c gl cc e c1 gl1,
       match_token fuel g l toks txt v c gl cc = (.ok (.IsNot e), c1, gl1) →
       errNodeHard e = true →
       enumLoop (fuel + 1) g l toks txt vF (v :: rest) ccl c gl cc
         = (.err e, ccl, gl1))
    ∧ (∀ fuel g l toks txt a rest c gl cc node bus e c1 gl1,
       match_token fuel g l toks txt (grammar.OneOf.token a) c gl cc
         = (.err e, c1, gl1) →
       isOneOfLoop (fuel + 1) g l toks txt (a :: rest) c gl cc node bus
         = (.err e, c1, gl1, node, bus))
    ∧ (∀ fuel g l toks txt a rest c gl cc node bus e c1 gl1,
       match_token fuel g l toks txt (grammar.OneOf.token a) c gl cc
         = (.err e, c1, gl1) →
       maybeOneOfLoop (fuel + 1) g l toks txt (a :: rest) c gl cc node bus
         = (.err e, c1, gl1, node, bus))
    ∧ (∀ fuel g l toks txt tok is isnt ps c gl cc node e c1 gl1,
       match_token fuel g l toks txt tok c gl cc = (.err e, c1, gl1) →
       execRule (fuel + 1) g l toks txt (.Maybe tok is isnt ps) c gl cc node
         = (.err e, c1, gl1, node, []))
    ∧ (∀ fuel g l toks txt tok rules ps c gl cc node e c1 gl1,
       match_token fuel g l toks txt tok c gl cc = (.err e, c1, gl1) →
       execRule (fuel + 1) g l toks txt (.While tok rules ps) c gl cc node
         = (.err e, c1, gl1, node, []))
    ∧ (∀ fuel g l toks txt vF v rest ccl c gl cc e c1 gl1,
       match_token fuel g l toks txt v c gl cc = (.err e, c1, gl1) →
       enumLoop (fuel + 1) g l toks txt vF (v :: rest) ccl c gl cc
         = (.err e, c1, gl1))
    ∧ (∀ fuel g l toks txt a rest c gl cc node bus e c1 gl1,
       match_token fuel g l toks txt (grammar.OneOf.token a) c gl cc
         = (.ok (.IsNot e), c1, gl1) →
       e.node = none →
       isOneOfLoop (fuel + 1) g l toks txt (a :: rest) c gl cc node bus
         = isOneOfLoop fuel g l toks txt rest ⟨c1.idx, false⟩ gl1 cc node bus)
    ∧ (∀ fuel g l toks txt a rest c gl cc node bus e c1 gl1 en,
       match_token fuel g l toks txt (grammar.OneOf.token a) c gl cc
         = (.ok (.IsNot e), c1, gl1) →
       e.node = some en → en.harderror = false →
       isOneOfLoop (fuel + 1) g l toks txt (a :: rest) c gl cc node bus
         = isOneOfLoop fuel g l toks txt rest c1 gl1 cc node bus)
    ∧ (∀ fuel g l toks txt tok is isnt ps c gl cc node e c1 gl1,
       match_token fuel g l toks txt tok c gl cc = (.ok (.IsNot e), c1, gl1) →
       errNodeHard e = false →
       execRule (fuel + 1) g l toks txt (.Maybe tok is isnt ps) c gl cc node
         = (match rulesLoop fuel g l toks txt isnt 0 c1 gl1 cc node with
            | (.ok m, c2, gl2, node2) => (.ok false, c2, gl2, node2, [m])
            | (.err e2, c2, gl2, node2) => (.err e2, c2, gl2, node2, [])
            | (.panicked, c2, gl2, node2) => (.panicked, c2, gl2, node2, [])
            | (.timeout, c2, gl2, node2) => (.timeout, c2, gl2, node2, [])))
    ∧ (∀ fuel g l toks txt tok rules ps c gl cc node e c1 gl1,
       match_token fuel g l toks txt tok c gl cc = (.ok (.IsNot e), c1, gl1) →
       errNodeHard e = false →
       execRule (fuel + 1) g l toks txt (.While tok rules ps) c gl cc node
         = (.ok false, c1, gl1, node, []))
    ∧ (∀ fuel g l toks txt vF v rest ccl c gl cc e c1 gl1,
       match_token fuel g l toks txt v c gl cc = (.ok (.IsNot e), c1, gl1) →
       errNodeHard e = false →
       enumLoop (fuel + 1) g l toks txt vF (v :: rest) ccl c gl cc
         = enumLoop fuel g l toks txt vF rest ccl ccl gl1 cc)
    ∧ (∀ fuel g l toks txt rules i c gl cc node rule c1 e c2 gl2 node2 bus
         (hlt : i < rules.length),
       rules.get ⟨i, hlt⟩ = rule →
       advanceCursor toks c node = (.ok (), c1) →
       execRule fuel g l toks txt rule c1 gl cc node = (.err e, c2, gl2, node2, bus) →
       rulesLoop (fuel + 1) g l toks txt rules i c gl cc node
         = (.err e, c2, gl2, node2)) := by
  refine ⟨?_, ?_, ?_, ?_, ?_, ?_, ?_, ?_, ?_, ?_, ?_, ?_, ?_, ?_, ?_, ?_, ?_⟩
  · intro fuel g l toks txt name c cc gl e nd c2 gl2 h
    simp only [match_token, h]
  · intro fuel g l toks txt a rest c gl cc node bus e c1 gl1 en h hn hh
    simp only [isOneOfLoop, h, hn, hh, if_true]
  · intro fuel g l toks txt a rest c gl cc node bus e c1 gl1 h hh
    simp only [maybeOneOfLoop, h, hh, if_true]
  · intro fuel g l toks txt tok is isnt ps c gl cc node e c1 gl1 h hh
    simp only [execRule, h, hh, if_true]
  · intro fuel g l toks txt tok rules ps c gl cc node e c1 gl1 h hh
    simp only [execRule, h, hh, if_true]
  · intro fuel g l toks txt vF v rest ccl c gl cc e c1 gl1 h hh
    simp only [enumLoop, h, hh, if_true]
  · intro fuel g l toks txt a rest c gl cc node bus e c1 gl1 h
    simp only [isOneOfLoop, h]
  · intro fuel g l toks txt a rest c gl cc node bus e c1 gl1 h
    simp only [maybeOneOfLoop, h]
  · intro fuel g l toks txt tok is isnt ps c gl cc node e c1 gl1 h
    simp only [execRule, h]
  · intro fuel g l toks txt tok rules ps c gl cc node e c1 gl1 h
    simp only [execRule, h]
  · intro fuel g l toks txt vF v rest ccl c gl cc e c1 gl1 h
    simp only [enumLoop, h]
  · intro fuel g l toks txt a rest c gl cc node bus e c1 gl1 h hn
    simp only [isOneOfLoop, h, hn]
  · intro fuel g l toks txt a rest c gl cc node bus e c1 gl1 en h hn hh
    simp only [isOneOfLoop, h, hn, hh]
    simp
  · intro fuel g l toks txt tok is isnt ps c gl cc node e c1 gl1 h hh
    simp only [execRule, h, hh]
    simp
  · intro fuel g l toks txt tok rules ps c gl cc node e c1 gl1 h hh
    simp only [execRule, h, hh]
    simp
  · intro fuel g l toks txt vF v rest ccl c gl cc e c1 gl1 h hh
    simp only [enumLoop, h, hh]
    simp
  · intro fuel g l toks txt rules i c gl cc node rule c1 e c2 gl2 node2 bus hlt
      hget hadv hexec
    simp only [rulesLoop, dif_pos hlt, hget, hadv, hexec]

def c4NodeA : grammar.Node :=
  ⟨"a", [.Is (.Token (.Token "+")) [] [.HardError true],
         .Is (.Token (.Token "-")) [] []], []⟩

def c4Grammar : grammar.Grammar := ⟨[("a", c4NodeA)], [], [], false⟩

def c4Lexer : Lexer := ⟨["+"]⟩

def c4Tokens : List Tok := [tokOf "+" 0, tokOf "+" 1, tokEof 2]

def c4FailErr : ParseError :=
  ⟨.ExpectedToken (.Token "-") (.Token "+"), ⟨1, 1⟩, none⟩

def c4FailNode : Node := .mk "a" [] 0 2 true

/-- Witness for C4: node a sets HardError true and then fails; the node
boundary conjunct applied to that concrete run shows the failure leaving
match_token as a propagating error. -/
theorem claim_C4_witness :
    match_token 101 c4Grammar c4Lexer c4Tokens "++" (.Node "a") ⟨0, false⟩ []
        ⟨0, false⟩
      = (.err c4FailErr, ⟨0, false⟩, []) := by
  have h := claim_C4_harderror_propagation.1 100 c4Grammar c4Lexer c4Tokens "++"
    "a" ⟨0, false⟩ ⟨0, false⟩ [] c4FailErr c4FailNode ⟨0, false⟩ [] rfl
  simpa [c4FailNode, Node.harderror] using h

end parser

namespace parser

/-- C5: semantics of the Compare command.  Conjunct 1: for two Number
values the computed comparison set contains an operator exactly when the
usual integer relation holds, for all six operators.  Conjunct 2: for any
pair of values that is not Number versus Number the computed set is the
singleton Equal or the singleton NotEqual, so only those two operators can
hold.  Conjuncts 3 and 4: both operand names are resolved in the enclosing
node-local variables, and a missing name yields VariableNotFound.
Conjuncts 5 and 6: the nested rules run exactly when the chosen operator is
in the computed set; otherwise the command is a no-op on the state. -/
theorem claim_C5_compare_semantics :
    (∀ (x y : Int) (cmp : grammar.Comparison),
       ((compareComparisons (.Number x) (.Number y)).contains cmp = true) ↔
         (match cmp with
          | .Equal => x = y
          | .NotEqual => x ≠ y
          | .GreaterThan => x > y
          | .LessThan => x < y
          | .GreaterThanOrEqual => x ≥ y
          | .LessThanOrEqual => x ≤ y))
    ∧ (∀ lv rv,
       (∀ x y, ¬(lv = VariableKind.Number x ∧ rv = VariableKind.Number y)) →
       compareComparisons lv rv = [.Equal] ∨ compareComparisons lv rv = [.NotEqual])
    ∧ (∀ fuel g l toks txt L R cmp rs c gl cc node,
       mapGet (Node.vars node) L = none →
       execRule (fuel + 1) g l toks txt (.Command (.Compare L R cmp rs)) c gl cc node
         = ((errAt toks c.idx (.VariableNotFound L) (some node) : Res ParseError Bool),
            c, gl, node, []))
    ∧ (∀ fuel g l toks txt L R cmp rs c gl cc node lv,
       mapGet (Node.vars node) L = some lv →
       mapGet (Node.vars node) R = none →
       execRule (fuel + 1) g l toks txt (.Command (.Compare L R cmp rs)) c gl cc node
         = ((errAt toks c.idx (.VariableNotFound R) (some node) : Res ParseError Bool),
            c, gl, node, []))
    ∧ (∀ fuel g l toks txt L R cmp rs c gl cc node lv rv,
       mapGet (Node.vars node) L = some lv →
       mapGet (Node.vars node) R = some rv →
       (compareComparisons lv rv).contains cmp = false →
       execRule (fuel + 1) g l toks txt (.Command (.Compare L R cmp rs)) c gl cc node
         = (.ok false, c, gl, node, []))
    ∧ (∀ fuel g l toks txt L R cmp rs c gl cc node lv rv,
       mapGet (Node.vars node) L = some lv →
       mapGet (Node.vars node) R = some rv →
       (compareComparisons lv rv).contains cmp = true →
       execRule (fuel + 1) g l toks txt (.Command (.Compare L R cmp rs)) c gl cc node
         = (match rulesLoop fuel g l toks txt rs 0 c gl cc node with
            | (.ok m, c1, gl1, node1) => (.ok false, c1, gl1, node1, [m])
            | (.err e, c1, gl1, node1) => (.err e, c1, gl1, node1, [])
            | (.panicked, c1, gl1, node1) => (.panicked, c1, gl1, node1, [])
            | (.timeout, c1, gl1, node1) => (.timeout, c1, gl1, node1, []))) := by
  refine ⟨?_, ?_, ?_, ?_, ?_, ?_⟩
  · intro x y cmp
    rcases lt_trichotomy x y with hlt | heq | hgt
    · have h1 : ¬ (x = y) := by omega
      have h2 : ¬ (x > y) := by omega
      cases cmp <;> simp +decide [compareComparisons, h1, h2, hlt] <;> omega
    · subst heq
      cases cmp <;> simp +decide [compareComparisons]
    · have h1 : ¬ (x = y) := by omega
      have h2 : ¬ (x < y) := by omega
      cases cmp <;> simp +decide [compareComparisons, h1, h2, hgt] <;> omega
  · intro lv rv hnot
    cases lv with
    | Node nl =>
      cases rv with
      | Node nr =>
        rcases nl with _ | v1
        · rcases nr with _ | v2
          · exact Or.inl rfl
          · rcases v2 with n2 | t2 <;> exact Or.inr rfl
        · rcases v1 with n1 | t1
          · rcases nr with _ | v2
            · exact Or.inr rfl
            · rcases v2 with n2 | t2
              · by_cases hn : n1.name = n2.name
                · exact Or.inl (by simp [compareComparisons, hn])
                · exact Or.inr (by simp [compareComparisons, hn])
              · exact Or.inr rfl
          · rcases nr with _ | v2
            · exact Or.inr rfl
            · rcases v2 with n2 | t2
              · exact Or.inr rfl
              · by_cases ht : t1 = t2
                · exact Or.inl (by simp [compareComparisons, ht])
                · exact Or.inr (by simp [compareComparisons, ht])
      | NodeList v => exact Or.inr rfl
      | Boolean b => exact Or.inr rfl
      | Number yv => exact Or.inr rfl
    | NodeList v => exact Or.inr rfl
    | Boolean b =>
      cases rv with
      | Boolean b2 =>
        by_cases hb : b = b2
        · exact Or.inl (by simp [compareComparisons, hb])
        · exact Or.inr (by simp [compareComparisons, hb])
      | Node v => exact Or.inr rfl
      | NodeList v => exact Or.inr rfl
      | Number yv => exact Or.inr rfl
    | Number x =>
      cases rv with
      | Number y => exact absurd ⟨rfl, rfl⟩ (hnot x y)
      | Node v => exact Or.inr rfl
      | NodeList v => exact Or.inr rfl
      | Boolean b => exact Or.inr rfl
  · intro fuel g l toks txt L R cmp rs c gl cc node h
    simp only [execRule, h]
  · intro fuel g l toks txt L R cmp rs c gl cc node lv hl hr
    simp only [execRule, hl, hr]
  · intro fuel g l toks txt L R cmp rs c gl cc node lv rv hl hr hc
    simp only [execRule, hl, hr, hc]
    simp
  · intro fuel g l toks txt L R cmp rs c gl cc node lv rv hl hr hc
    simp only [execRule, hl, hr, hc, if_true]

def c5Node : Node := .mk "e" [("a", .Number 2), ("b", .Number 1)] 0 0 false

def c5Grammar : grammar.Grammar := ⟨[], [], [], false⟩

/-- Witness for C5: the rules-run conjunct applied to a concrete Compare of
the Number attributes a = 2 and b = 1 under GreaterThan, which holds, so
the empty nested rule list runs and pushes its Ok message. -/
theorem claim_C5_witness :
    execRule 101 c5Grammar ⟨[]⟩ [tokEof 0] ""
        (.Command (.Compare "a" "b" .GreaterThan [])) ⟨0, false⟩ [] ⟨0, false⟩ c5Node
      = (.ok false, ⟨0, false⟩, [], c5Node, [Msg.Ok]) := by
  exact claim_C5_compare_semantics.2.2.2.2.2 100 c5Grammar ⟨[]⟩ [tokEof 0] ""
    "a" "b" .GreaterThan [] ⟨0, false⟩ [] ⟨0, false⟩ c5Node
    (.Number 2) (.Number 1) rfl rfl rfl

end parser

namespace parser

/-- C6: alternative ordering and first-match commitment.  Conjuncts 1 and 2:
when the head alternative of an IsOneOf matches, the loop runs exactly that
alternative through the shared parameters-and-rules block and the remaining
alternatives are irrelevant (the outcome is the same for any tail).
Conjuncts 3 and 4: a soft miss moves on to the next alternative in order.
Conjuncts 5 and 6: when every alternative has missed, the arm fails with
ExpectedOneOf listing the tokens of all alternatives in declaration order,
restoring the cursor to the node entry clone.  Conjuncts 7 to 10: the same
discipline for Enumerator matching, whose miss is the soft IsNot result
ExpectedOneOf listing the enumerator values. -/
theorem claim_C6_declaration_order_first_match :
    (∀ fuel g l toks txt a rest c gl cc node bus val c1 gl1,
       match_token fuel g l toks txt (grammar.OneOf.token a) c gl cc
         = (.ok (.Is val), c1, gl1) →
       isOneOfLoop (fuel + 1) g l toks txt (a :: rest) c gl cc node bus
         = (match processOneOf fuel g l toks txt a val c1 gl1 cc node bus with
            | (.ok _, c2, gl2, node2, bus2) => (.ok true, c2, gl2, node2, bus2)
            | (.err e, c2, gl2, node2, bus2) => (.err e, c2, gl2, node2, bus2)
            | (.panicked, c2, gl2, node2, bus2) => (.panicked, c2, gl2, node2, bus2)
            | (.timeout, c2, gl2, node2, bus2) => (.timeout, c2, gl2, node2, bus2)))
    ∧ (∀ fuel g l toks txt a rest rest2 c gl cc node bus val c1 gl1,
       match_token fuel g l toks txt (grammar.OneOf.token a) c gl cc
         = (.ok (.Is val), c1, gl1) →
       isOneOfLoop (fuel + 1) g l toks txt (a :: rest) c gl cc node bus
         = isOneOfLoop (fuel + 1) g l toks txt (a :: rest2) c gl cc node bus)
    ∧ (∀ fuel g l toks txt a rest c gl cc node bus e c1 gl1,
       match_token fuel g l toks txt (grammar.OneOf.token a) c gl cc
         = (.ok (.IsNot e), c1, gl1) →
       e.node = none →
       isOneOfLoop (fuel + 1) g l toks txt (a :: rest) c gl cc node bus
         = isOneOfLoop fuel g l toks txt rest ⟨c1.idx, false⟩ gl1 cc node bus)
    ∧ (∀ fuel g l toks txt a rest c gl cc node bus e c1 gl1 en,
       match_token fuel g l toks txt (grammar.OneOf.token a) c gl cc
         = (.ok (.IsNot e), c1, gl1) →
       e.node = some en → en.harderror = false →
       isOneOfLoop (fuel + 1) g l toks txt (a :: rest) c gl cc node bus
         = isOneOfLoop fuel g l toks txt rest c1 gl1 cc node bus)
    ∧ (∀ fuel g l toks txt c gl cc node bus,
       isOneOfLoop (fuel + 1) g l toks txt [] c gl cc node bus
         = (.ok false, c, gl, node, bus))
    ∧ (∀ fuel g l toks txt alts c gl cc node c1 gl1 node1 bus1 t,
       isOneOfLoop fuel g l toks txt alts c gl cc node []
         = (.ok false, c1, gl1, node1, bus1) →
       toks.get? c1.idx = some t →
       execRule (fuel + 1) g l toks txt (.IsOneOf alts) c gl cc node
         = (.err ⟨.ExpectedOneOf (alts.map grammar.OneOf.token) t.kind,
                  t.location, some node1⟩,
            cc, gl1, node1, bus1))
    ∧ (∀ fuel g l toks txt nm en c gl cc,
       mapGet (grammar.Grammar.enumerators g) nm = some en →
       match_token (fuel + 1) g l toks txt (.Enumerator nm) c gl cc
         = enumLoop fuel g l toks txt en.values en.values c c gl cc)
    ∧ (∀ fuel g l toks txt vF v rest ccl c gl cc val c1 gl1,
       match_token fuel g l toks txt v c gl cc = (.ok (.Is val), c1, gl1) →
       enumLoop (fuel + 1) g l toks txt vF (v :: rest) ccl c gl cc
         = (.ok (.Is val), c1, gl1))
    ∧ (∀ fuel g l toks txt vF v rest ccl c gl cc e c1 gl1,
       match_token fuel g l toks txt v c gl cc = (.ok (.IsNot e), c1, gl1) →
       errNodeHard e = false →
       enumLoop (fuel + 1) g l toks txt vF (v :: rest) ccl c gl cc
         = enumLoop fuel g l toks txt vF rest ccl ccl gl1 cc)
    ∧ (∀ fuel g l toks txt vF ccl c gl cc,
       enumLoop (fuel + 1) g l toks txt vF [] ccl c gl cc
         = (match toks.get? c.idx with
            | none => (.panicked, c, gl)
            | some t =>
              (.ok (.IsNot ⟨.ExpectedOneOf vF t.kind, t.location, none⟩), c, gl))) := by
  refine ⟨?_, ?_, ?_, ?_, ?_, ?_, ?_, ?_, ?_, ?_⟩
  · intro fuel g l toks txt a rest c gl cc node bus val c1 gl1 h
    simp only [isOneOfLoop, h]
  · intro fuel g l toks txt a rest rest2 c gl cc node bus val c1 gl1 h
    simp only [isOneOfLoop, h]
  · intro fuel g l toks txt a rest c gl cc node bus e c1 gl1 h hn
    simp only [isOneOfLoop, h, hn]
  · intro fuel g l toks txt a rest c gl cc node bus e c1 gl1 en h hn hh
    simp only [isOneOfLoop, h, hn, hh]
    simp
  · intro fuel g l toks txt c gl cc node bus
    rfl
  · intro fuel g l toks txt alts c gl cc node c1 gl1 node1 bus1 t h hget
    simp only [execRule, h, hget]
    simp
  · intro fuel g l toks txt nm en c gl cc h
    simp only [match_token, h]
  · intro fuel g l toks txt vF v rest ccl c gl cc val c1 gl1 h
    simp only [enumLoop, h]
  · intro fuel g l toks txt vF v rest ccl c gl cc e c1 gl1 h hh
    simp only [enumLoop, h, hh]
    simp
  · intro fuel g l toks txt vF ccl c gl cc
    rfl

def c6Alts : List grammar.OneOf :=
  [.mk (.Token (.Token "-")) [] [], .mk (.Token (.Token "*")) [] []]

def c6Grammar : grammar.Grammar := ⟨[], [], [], false⟩

def c6Lexer : Lexer := ⟨["-", "*"]⟩

def c6Tokens : List Tok := [tokText 0, tokEof 1]

def c6Node : Node := Node.new "x"

/-- Witness for C6: the all-miss conjunct applied to a concrete IsOneOf of
two literal alternatives over a Text token: the arm fails with
ExpectedOneOf listing both alternatives in declaration order. -/
theorem claim_C6_witness :
    execRule 101 c6Grammar c6Lexer c6Tokens "a" (.IsOneOf c6Alts) ⟨0, false⟩ []
        ⟨0, false⟩ c6Node
      = (.err ⟨.ExpectedOneOf [.Token (.Token "-"), .Token (.Token "*")] .Text,
               ⟨1, 0⟩, some c6Node⟩,
         ⟨0, false⟩, [], c6Node, []) := by
  exact claim_C6_declaration_order_first_match.2.2.2.2.2.1 100 c6Grammar c6Lexer
    c6Tokens "a" c6Alts ⟨0, false⟩ [] ⟨0, false⟩ c6Node ⟨0, false⟩ [] c6Node []
    (tokText 0) rfl rfl

end parser

namespace parser

/-- C7: the eof mode flag.  When the flag is false, a successful entry node
yields Ok regardless of how many tokens remain.  When the flag is true, the
indices stepped over after the entry node returns hold only tokens whose
kind satisfies is_whitespace, and at the index where the skip stops the
result is Ok exactly when the token there is the Eof control token and a
MissingEof error carrying that token kind and the partial tree otherwise.
The eof field of Grammar and is_whitespace are modelled from the spec, as
their declarations are absent from src. -/
theorem claim_C7_eof_mode :
    ∀ fuel p g l toks txt node c1 gl1,
    parse_node fuel g l toks txt (Parser.entry p) ⟨0, false⟩
        (Node.variables_from_grammar (grammar.Grammar.globals g)) = (.ok node, c1, gl1) →
    (grammar.Grammar.eof g = false → parse fuel p g l toks txt = .ok ⟨node, gl1⟩)
    ∧ (grammar.Grammar.eof g = true →
        (∀ k, c1.idx ≤ k → k < eofSkip toks c1.idx →
            ∃ t, toks.get? k = some t ∧ t.kind.is_whitespace = true)
        ∧ (∀ t, toks.get? (eofSkip toks c1.idx) = some t →
             (t.kind = TokenKinds.Control .Eof →
                parse fuel p g l toks txt = .ok ⟨node, gl1⟩)
             ∧ (t.kind ≠ TokenKinds.Control .Eof →
                parse fuel p g l toks txt
                  = .err ⟨.MissingEof t.kind, t.location, some node⟩))) := by
  intro fuel p g l toks txt node c1 gl1 h
  constructor
  · intro hf
    simp only [parse, h, hf]
    simp
  · intro ht
    refine ⟨(eofSkip_spec toks c1.idx).2, ?_⟩
    intro t hget
    constructor
    · intro hk
      simp only [parse, h, ht, hget]
      simp [hk]
    · intro hk
      simp only [parse, h, ht, hget]
      simp [hk]

def c7Entry : grammar.Node := ⟨"entry", [], []⟩

def c7GrammarT : grammar.Grammar := ⟨[("entry", c7Entry)], [], [], true⟩

def c7GrammarF : grammar.Grammar := ⟨[("entry", c7Entry)], [], [], false⟩

def c7Lexer : Lexer := ⟨[]⟩

/-- Witness for C7: the theorem applied to an entry node with no rules.
In eof mode a leftover Text token gives MissingEof with the partial tree
while a stream whose first token is Eof gives Ok; with the flag off the
leftover Text token is ignored. -/
theorem claim_C7_witness :
    parse 100 ⟨"entry"⟩ c7GrammarT c7Lexer [tokText 0, tokEof 1] "a"
      = .err ⟨.MissingEof .Text, ⟨1, 0⟩, some (Node.mk "entry" [] 0 1 false)⟩
    ∧ parse 100 ⟨"entry"⟩ c7GrammarT c7Lexer [tokEof 0] ""
      = .ok ⟨Node.mk "entry" [] 0 0 false, []⟩
    ∧ parse 100 ⟨"entry"⟩ c7GrammarF c7Lexer [tokText 0, tokEof 1] "a"
      = .ok ⟨Node.mk "entry" [] 0 1 false, []⟩ := by
  refine ⟨?_, ?_, ?_⟩
  · exact (((claim_C7_eof_mode 100 ⟨"entry"⟩ c7GrammarT c7Lexer [tokText 0, tokEof 1]
      "a" (Node.mk "entry" [] 0 1 false) ⟨0, false⟩ [] rfl).2 rfl).2
      (tokText 0) rfl).2 (by decide)
  · exact (((claim_C7_eof_mode 100 ⟨"entry"⟩ c7GrammarT c7Lexer [tokEof 0]
      "" (Node.mk "entry" [] 0 0 false) ⟨0, false⟩ [] rfl).2 rfl).2
      (tokEof 0) rfl).1 rfl
  · exact (claim_C7_eof_mode 100 ⟨"entry"⟩ c7GrammarF c7Lexer [tokText 0, tokEof 1]
      "a" (Node.mk "entry" [] 0 1 false) ⟨0, false⟩ [] rfl).1 rfl

end parser
